import Mathlib

/-!
# modular-indexer-light: checkpoint reconciliation and inscription identifiers

A shallow embedding of

* `internal/clients/ordi/model.go` (`InscriptionID`, `InsFromStr`), and
* `internal/states/state.go` (`State`, `New`, `CurrentHeight`,
  `UpdateCheckpoints`, `LastCheckpoint`, `CurrentCheckpoints`,
  `CurrentFirstCheckpoint`),

together with the parts of the Go standard library they call
(`strings.Split`, `strconv.ParseInt`, `strconv.ParseUint`).

Conventions.

* A Go pointer is an `Option`; dereferencing `none` is a run-time panic.
* A Go function that may panic returns an explicit outcome with a `panic` case.
* Machine integers are `Nat` or `Int`, with explicit wrap-around where the Go
  code can overflow.
* External collaborators (provider fetch, committee RPC, proof replay, the
  Bitcoin cross-check, base64) are fields of a `World` record; their effects
  that the specification talks about are recorded in an effect log.
-/

set_option autoImplicit false
set_option linter.dupNamespace false

/-! ## Go standard library: `strings` and `strconv` -/

namespace strings

/-- Go `strings.Split(s, sep)` for a one-character separator `sep`, on the
character list of `s`: the pieces between consecutive occurrences of the
separator, in order (always at least one piece). -/
def Split (sep : Char) : List Char → List (List Char)
  | [] => [[]]
  | c :: cs =>
    if c = sep then [] :: Split sep cs
    else
      match Split sep cs with
      | [] => [[c]]
      | piece :: rest => (c :: piece) :: rest

end strings

namespace strconv

/-- The two error kinds of Go `strconv.NumError` that base-10 parsing can give. -/
inductive NumError where
  | ErrSyntax
  | ErrRange
  deriving DecidableEq, Repr

/-- The largest `uint64`. -/
def maxUint64 : Nat := 2 ^ 64 - 1

/-- The digit loop of Go `strconv.ParseUint` for base 10. `n` is the `uint64`
accumulator; `maxVal = 1<<bitSize - 1`. A byte that is not a decimal digit ends
the loop with a syntax error and value `0`; an overflow ends it with a range
error and value `maxVal`. -/
def parseUintLoop (maxVal : Nat) : List Char → Nat → Nat × Option NumError
  | [], n => (n, none)
  | c :: cs, n =>
    if '0' ≤ c ∧ c ≤ '9' then
      let d := c.toNat - '0'.toNat
      -- cutoff = maxUint64/10 + 1
      if n ≥ maxUint64 / 10 + 1 then (maxVal, some NumError.ErrRange)
      else
        let n10 := (n * 10) % 2 ^ 64
        let n1 := (n10 + d) % 2 ^ 64
        if n1 < n10 ∨ n1 > maxVal then (maxVal, some NumError.ErrRange)
        else parseUintLoop maxVal cs n1
    else (0, some NumError.ErrSyntax)

/-- Go `strconv.ParseUint(s, 10, bitSize)` for `1 ≤ bitSize ≤ 64`: the value
and the error (`none` is Go's `nil`). -/
def ParseUint (s : List Char) (bitSize : Nat) : Nat × Option NumError :=
  if s = [] then (0, some NumError.ErrSyntax)
  else parseUintLoop (2 ^ bitSize - 1) s 0

/-- Go `strconv.ParseInt(s, 10, bitSize)` for `1 ≤ bitSize ≤ 64`: the value
and the error (`none` is Go's `nil`). -/
def ParseInt (s : List Char) (bitSize : Nat) : Int × Option NumError :=
  match s with
  | [] => (0, some NumError.ErrSyntax)
  | c :: cs =>
    let neg : Bool := c = '-'
    let body : List Char := if c = '+' ∨ c = '-' then cs else c :: cs
    match ParseUint body bitSize with
    | (_, some NumError.ErrSyntax) => (0, some NumError.ErrSyntax)
    | (un, _) =>
      let cutoff : Nat := 2 ^ (bitSize - 1)
      if neg = false ∧ un ≥ cutoff then ((cutoff : Int) - 1, some NumError.ErrRange)
      else if neg = true ∧ un > cutoff then (-(cutoff : Int), some NumError.ErrRange)
      else if neg then (-(un : Int), none) else ((un : Int), none)

/-- The character of a decimal digit `d < 10`. -/
def digitChar (d : Nat) : Char := Char.ofNat (48 + d)

/-- Base-10 text of a natural number, most significant digit first, without
leading zeros (`0` is written `0`). -/
def natText (n : Nat) : List Char :=
  if _h : n < 10 then [digitChar n]
  else natText (n / 10) ++ [digitChar (n % 10)]
decreasing_by omega

/-- Base-10 text of an integer as Go `strconv.Itoa` / `FormatInt(n, 10)` writes
it: a minus sign for a negative number, then the digits of its magnitude. -/
def intText (n : Int) : List Char :=
  if n < 0 then '-' :: natText n.natAbs else natText n.natAbs

end strconv

/-! ## `internal/clients/ordi/model.go` -/

namespace ordi

/-- Go `type InscriptionID struct { TxID string; Index int }`. -/
structure InscriptionID where
  TxID : String
  Index : Int
  deriving DecidableEq, Repr

/-- Go `func InsFromStr(in string) InscriptionID`. `none` is the run-time panic
of `arr[1]` when the input has no separator. The parse error is discarded, as
in the source. -/
def InsFromStr (input : String) : Option InscriptionID :=
  let arr := strings.Split 'i' input.data
  match arr with
  | a0 :: a1 :: _ =>
    let index := (strconv.ParseInt a1 32).1
    some { TxID := String.mk a0, Index := index }
  | _ => none

end ordi

/-! ## Types of the collaborating packages -/

namespace checkpoint

/-- Modelled from the spec: the committee package's `checkpoint.Checkpoint`
(its declaration is outside this repository), "the signed tuple published by
one provider for one block": height as decimal text, block hash, base64
commitment, provider name and URL. -/
structure Checkpoint where
  Commitment : String
  Hash : String
  Height : String
  Name : String
  URL : String
  deriving DecidableEq, Repr

end checkpoint

namespace configs

/-- Modelled from the spec: `configs.CheckpointExport` (declared in
`internal/configs`), a provider's checkpoint as exported; the source reads its
field `Checkpoint`. -/
structure CheckpointExport where
  Checkpoint : checkpoint.Checkpoint
  deriving DecidableEq, Repr

end configs

namespace getter

/-- The committee package's `getter.OrdTransfer`, with the fields the source
fills in; `Content` is the decoded byte string. -/
structure OrdTransfer where
  ID : Nat
  InscriptionID : String
  OldSatpoint : String
  NewSatpoint : String
  NewPkscript : String
  NewWallet : String
  SentAsFee : Bool
  Content : List Nat
  ContentType : String
  deriving DecidableEq, Repr

end getter

namespace apis

/-- One element of `stateProof.Result.OrdTransfers`: a transfer as it comes
over the wire, `Content` still base64 text. -/
structure OrdTransferJSON where
  ID : Nat
  InscriptionID : String
  OldSatpoint : String
  NewSatpoint : String
  NewPkscript : String
  NewWallet : String
  SentAsFee : Bool
  Content : String
  ContentType : String
  deriving DecidableEq, Repr

/-- The `Result` part of a latest-state-proof response. -/
structure StateProofResult where
  OrdTransfers : List OrdTransferJSON
  deriving DecidableEq, Repr

/-- The response of the committee RPC `LatestStateProof`: an optional error
message and the result. -/
structure StateProof where
  Error : Option String
  Result : StateProofResult
  deriving DecidableEq, Repr

end apis

namespace verkle

/-- A curve point of the commitment scheme, known here by its byte encoding. -/
structure Point where
  bytes : List Nat
  deriving DecidableEq, Repr

/-- A node of the commitment tree, known here by `node.Commit().Bytes()`. -/
structure Node where
  commitBytes : List Nat
  deriving DecidableEq, Repr

end verkle

namespace checkpoints

/-- A configured checkpoint provider (`checkpoints.CheckpointProvider`), known
here by an identifier. -/
structure CheckpointProvider where
  id : String
  deriving DecidableEq, Repr

/-- Modelled from the spec: `checkpoints.Inconsistent` (declared in
`internal/checkpoints`). "If all returned commitments are identical, it
fast-paths to adoption. Otherwise it enters verification": the fetched
checkpoints are inconsistent when some commitment differs from the first. -/
def Inconsistent (cps : List configs.CheckpointExport) : Bool :=
  match cps with
  | [] => false
  | first :: rest =>
    rest.any (fun ck => decide (ck.Checkpoint.Commitment ≠ first.Checkpoint.Commitment))

end checkpoints

/-! ## `internal/states/state.go` -/

namespace states

open configs checkpoints

/-- Go `type Status int` with `StatusActive Status = iota + 1`. -/
abbrev Status := Int

/-- Status `ready`. -/
def StatusActive : Status := 1
/-- Status `syncing`. -/
def StatusSync : Status := 2
/-- Status `verifying`. -/
def StatusVerify : Status := 3

/-- Go `type State struct`. `State` is the atomic status cell; the two
checkpoint fields hold pointers. The mutex is not represented: a call of
`UpdateCheckpoints` holds the write lock for its whole duration, so rounds and
reads are serialised. -/
structure State where
  State : Int
  denyListPath : String
  providers : List CheckpointProvider
  lastCheckpoint : Option CheckpointExport
  currentCheckpoints : List (Option CheckpointExport)
  minimalCheckpoint : Int
  timeout : Nat
  deriving DecidableEq, Repr

/-- Go `func New(...) *State`: the status cell is zero, and
`make([]*configs.CheckpointExport, len(providers))` is a slice of
`len(providers)` nil pointers. -/
def New (denyListPath : String) (providers : List CheckpointProvider)
    (lastCheckpoint : Option CheckpointExport) (minimalCheckpoint : Int)
    (fetchTimeout : Nat) : State :=
  { State := 0
    denyListPath := denyListPath
    providers := providers
    lastCheckpoint := lastCheckpoint
    currentCheckpoints := List.replicate providers.length none
    minimalCheckpoint := minimalCheckpoint
    timeout := fetchTimeout }

/-- The atomic store `s.State.Store(int64(status))`. -/
def storeStatus (s : State) (status : Status) : State :=
  { s with State := status }

/-- The result of a Go call that may panic. -/
inductive GoResult (α : Type) where
  | ret (a : α)
  | panic
  deriving DecidableEq, Repr

/-- Go `func (s *State) LastCheckpoint()`. -/
def LastCheckpoint (s : State) : Option CheckpointExport := s.lastCheckpoint

/-- Go `func (s *State) CurrentCheckpoints()`. -/
def CurrentCheckpoints (s : State) : List (Option CheckpointExport) := s.currentCheckpoints

/-- Go `func (s *State) CurrentFirstCheckpoint()`: `s.currentCheckpoints[0]`,
which panics (index out of range) on an empty slice. -/
def CurrentFirstCheckpoint (s : State) : GoResult (Option CheckpointExport) :=
  match s.currentCheckpoints with
  | [] => GoResult.panic
  | first :: _ => GoResult.ret first

/-- Go `func (s *State) CurrentHeight() uint`. The parse error is only logged,
so the value `ParseUint` returned with it is the result (`uint` is 64 bits
wide). -/
def CurrentHeight (s : State) : GoResult Nat :=
  match CurrentFirstCheckpoint s with
  | GoResult.panic => GoResult.panic
  | GoResult.ret none => GoResult.ret 0
  | GoResult.ret (some ck) => GoResult.ret (strconv.ParseUint ck.Checkpoint.Height.data 64).1

end states

/-! ## One reconciliation round: `State.UpdateCheckpoints` -/

namespace states

open configs checkpoints

/-- The collaborators of a round, as the round sees them.

* `GetCheckpoints` is `checkpoints.GetCheckpoints(ctx, providers, height, hash)`.
* `committeeNew url` tells whether `committee.New(url)` gives a client.
* `LatestStateProof url` is the committee RPC of the client for `url`.
* `DecodeString`, `EncodeToString` are `base64.StdEncoding`.
* `VerifyOrdTransfer` is `ordi.VerifyOrdTransfer`.
* `SetBytes` is `verkle.Point.SetBytes` on a fresh point.
* `GeneratePostRoot` is `apis.GeneratePostRoot`; `ok none` is a nil node.
* `arrival commitment` is the position in time at which the verification task
  of `commitment` delivers its result on the `succCommits` channel: tasks run
  concurrently over a map, so the order of the collected results is not fixed
  by the program. -/
structure World where
  GetCheckpoints : List CheckpointProvider → Nat → String → Except String (List CheckpointExport)
  committeeNew : String → Bool
  LatestStateProof : String → Except String apis.StateProof
  DecodeString : String → Option (List Nat)
  EncodeToString : List Nat → String
  VerifyOrdTransfer : List getter.OrdTransfer → Nat → Except String Bool
  SetBytes : List Nat → Option verkle.Point
  GeneratePostRoot : verkle.Point → Nat → apis.StateProof → Except String (Option verkle.Node)
  arrival : String → Nat

/-- The observable calls of a round that the specification speaks about. -/
inductive Effect where
  -- the committee RPC `LatestStateProof` on the client for `url`
  | LatestStateProof (url : String)
  -- the proof replay `apis.GeneratePostRoot` for the checkpoint `commitment`
  | GeneratePostRoot (commitment : String)
  -- the deny-list write `checkpoints.Deny(path, trusted, rejected)`
  | Deny (path : String) (trusted : Option CheckpointExport) (rejected : CheckpointExport)
  deriving DecidableEq, Repr

/-- The local Go type `succCommit`. -/
structure succCommit where
  commitment : String
  transferLen : Nat
  deriving DecidableEq, Repr

/-- How one verification task ends: it returns without sending (`unverified`),
sends `succCommit{commitment, transferLen}` (`verified`), or panics
(`crash`). -/
inductive Verdict where
  | unverified
  | verified (transferLen : Nat)
  | crash
  deriving DecidableEq, Repr

/-- How a call of `UpdateCheckpoints` ends: `return nil`, `return err`, or a
panic. -/
inductive Outcome where
  | nil
  | error (msg : String)
  | panic
  deriving DecidableEq, Repr

/-- A finished round: how it ended, the state it left, and its effects. -/
structure Round where
  outcome : Outcome
  state : State
  effects : List Effect
  deriving DecidableEq, Repr

/-- The loop `for _, ck := range cps` that fills the map `aggregates`: a
commitment already present is skipped, so each commitment keeps the first
checkpoint that carries it. The map is an association list in insertion
order. -/
def aggregate (cps : List CheckpointExport) : List (String × CheckpointExport) :=
  cps.foldl
    (fun aggregates ck =>
      if (aggregates.lookup ck.Checkpoint.Commitment).isSome then aggregates
      else aggregates ++ [(ck.Checkpoint.Commitment, ck)])
    []

/-- The loop `for _, tran := range stateProof.Result.OrdTransfers`: decode
every content; `none` when some content is not valid base64 (the task
returns). -/
def decodeTransfers (w : World) :
    List apis.OrdTransferJSON → List getter.OrdTransfer → Option (List getter.OrdTransfer)
  | [], ordTransfers => some ordTransfers
  | tran :: rest, ordTransfers =>
    match w.DecodeString tran.Content with
    | none => none
    | some contentBytes =>
      decodeTransfers w rest
        (ordTransfers ++
          [{ ID := tran.ID
             InscriptionID := tran.InscriptionID
             OldSatpoint := tran.OldSatpoint
             NewSatpoint := tran.NewSatpoint
             NewPkscript := tran.NewPkscript
             NewWallet := tran.NewWallet
             SentAsFee := tran.SentAsFee
             Content := contentBytes
             ContentType := tran.ContentType }])

/-- The second half of the verification task, from
`preCheckpoint := s.lastCheckpoint` to the send on `succCommits`, reached when
the Bitcoin cross-check has accepted `ordTransfers`. It dereferences
`lastCheckpoint` (a nil pointer panics), decodes the previous commitment into a
point, replays the proof and compares the commitments. -/
def replayProof (w : World) (lastCheckpoint : Option CheckpointExport) (height : Nat)
    (checkpointCommit : String) (ck : checkpoint.Checkpoint) (stateProof : apis.StateProof)
    (ordTransfers : List getter.OrdTransfer) : Verdict × List Effect :=
  match lastCheckpoint with
  | none => (Verdict.crash, [Effect.LatestStateProof ck.URL])
  | some preCheckpoint =>
    match w.DecodeString preCheckpoint.Checkpoint.Commitment with
    | none => (Verdict.unverified, [Effect.LatestStateProof ck.URL])
    | some prePointByte =>
      match w.SetBytes prePointByte with
      | none => (Verdict.unverified, [Effect.LatestStateProof ck.URL])
      | some prePoint =>
        let effects := [Effect.LatestStateProof ck.URL, Effect.GeneratePostRoot checkpointCommit]
        match w.GeneratePostRoot prePoint height stateProof with
        | Except.error _ => (Verdict.unverified, effects)
        | Except.ok none => (Verdict.unverified, effects)
        | Except.ok (some node) =>
          let calCommit := w.EncodeToString node.commitBytes
          if calCommit ≠ checkpointCommit then (Verdict.unverified, effects)
          else (Verdict.verified ordTransfers.length, effects)

/-- The body of the verification task `go func(checkpointCommit, ck)`: its
verdict and the effects it performed. Of the state the task reads only
`s.lastCheckpoint`, passed here as `lastCheckpoint`. -/
def verifyCommit (w : World) (lastCheckpoint : Option CheckpointExport) (height : Nat)
    (checkpointCommit : String) (ck : checkpoint.Checkpoint) : Verdict × List Effect :=
  if w.committeeNew ck.URL = false then (Verdict.unverified, [])
  else
    match w.LatestStateProof ck.URL with
    | Except.error _ => (Verdict.unverified, [Effect.LatestStateProof ck.URL])
    | Except.ok stateProof =>
      if stateProof.Error.isSome then (Verdict.unverified, [Effect.LatestStateProof ck.URL])
      else
        match decodeTransfers w stateProof.Result.OrdTransfers [] with
        | none => (Verdict.unverified, [Effect.LatestStateProof ck.URL])
        | some ordTransfers =>
          let curHeight := (strconv.ParseInt ck.Height.data 64).1
          match w.VerifyOrdTransfer ordTransfers (curHeight % 2 ^ 64).toNat with
          | Except.error _ => (Verdict.unverified, [Effect.LatestStateProof ck.URL])
          | Except.ok false => (Verdict.unverified, [Effect.LatestStateProof ck.URL])
          | Except.ok true =>
            replayProof w lastCheckpoint height checkpointCommit ck stateProof ordTransfers

/-- What the verification task of one map entry sends on `succCommits`. -/
def sentBy (w : World) (lastCheckpoint : Option CheckpointExport) (height : Nat)
    (entry : String × CheckpointExport) : Option succCommit :=
  match (verifyCommit w lastCheckpoint height entry.1 entry.2.Checkpoint).1 with
  | Verdict.verified transferLen => some { commitment := entry.1, transferLen := transferLen }
  | _ => none

/-- The slice `succVerify`: the results sent by the tasks of all map entries,
in the order in which they arrived on the channel. -/
def collectSuccVerify (w : World) (lastCheckpoint : Option CheckpointExport) (height : Nat)
    (aggregates : List (String × CheckpointExport)) : List succCommit :=
  (aggregates.filterMap (sentBy w lastCheckpoint height)).insertionSort
    (fun a b => w.arrival a.commitment ≤ w.arrival b.commitment)

/-- The loop `for i := 1; i < len(succVerify); i++` from index `i` on, over the
remaining elements `rest`: the final `(champion, seemRight)`. -/
def championLoop : List succCommit → Nat → Nat → Nat → List String → Nat × List String
  | [], _, _, champion, seemRight => (champion, seemRight)
  | c :: rest, i, maxTransfer, champion, seemRight =>
    if c.transferLen > maxTransfer then
      championLoop rest (i + 1) c.transferLen i (seemRight ++ [c.commitment])
    else
      championLoop rest (i + 1) maxTransfer champion (seemRight ++ [c.commitment])

/-- Champion selection on a non-empty `succVerify`: `maxTransfer` starts at
`succVerify[0].transferLen`, `champion` at `0`, `seemRight` empty. The result
is `(champion, seemRight)`; an empty list has none. -/
def selectChampion (succVerify : List succCommit) : Option (Nat × List String) :=
  match succVerify with
  | [] => none
  | first :: rest => some (championLoop rest 1 first.transferLen 0 [])

/-- The loop `for _, ck := range cps` under `// Deny untrusted providers.`: the
deny-list writes, in order. -/
def denyWrites (denyListPath : String) (seemRight : List String)
    (trusted : Option CheckpointExport) (cps : List CheckpointExport) : List Effect :=
  cps.filterMap
    (fun ck =>
      if ¬ seemRight.contains ck.Checkpoint.Commitment ∧ denyListPath ≠ "" then
        some (Effect.Deny denyListPath trusted ck)
      else none)

/-- The effects of all verification tasks (in map insertion order; the tasks
are independent of each other). -/
def verifyEffects (w : World) (lastCheckpoint : Option CheckpointExport) (height : Nat)
    (aggregates : List (String × CheckpointExport)) : List Effect :=
  (aggregates.map
    (fun entry => (verifyCommit w lastCheckpoint height entry.1 entry.2.Checkpoint).2)).flatten

/-- The branch `if inconsistent { ... }` of `UpdateCheckpoints`, entered in
state `s` (status already `StatusSync`) with the fetched checkpoints `cps`. -/
def reconcile (w : World) (s : State) (height : Nat) (cps : List CheckpointExport) : Round :=
  let aggregates := aggregate cps
  let effects := verifyEffects w s.lastCheckpoint height aggregates
  if aggregates.any
      (fun entry =>
        decide ((verifyCommit w s.lastCheckpoint height entry.1 entry.2.Checkpoint).1 =
          Verdict.crash))
  then { outcome := Outcome.panic, state := s, effects := effects }
  else
    let succVerify := collectSuccVerify w s.lastCheckpoint height aggregates
    match selectChampion succVerify with
    | none => { outcome := Outcome.error "all cps verify failed", state := s, effects := effects }
    | some (champion, seemRight) =>
      match succVerify[champion]? with
      | none => { outcome := Outcome.panic, state := s, effects := effects }
      | some trust =>
        let trustCommitment := trust.commitment
        match s.currentCheckpoints with
        | [] => { outcome := Outcome.panic, state := s, effects := effects }
        | first :: _ =>
          let trusted := aggregates.lookup trustCommitment
          let s' : State :=
            storeStatus { s with lastCheckpoint := first, currentCheckpoints := [trusted] }
              StatusActive
          let effects' := effects ++ denyWrites s.denyListPath seemRight trusted cps
          match trusted with
          | none => { outcome := Outcome.panic, state := s', effects := effects' }
          | some _ => { outcome := Outcome.nil, state := s', effects := effects' }

/-- The branch `else { ... }` of `UpdateCheckpoints` (consistent checkpoints),
followed by the read `s.currentCheckpoints[0].Checkpoint.Commitment`. -/
def adopt (s : State) (cps : List CheckpointExport) : Round :=
  match s.currentCheckpoints with
  | [] => { outcome := Outcome.panic, state := s, effects := [] }
  | first :: _ =>
    let s' : State :=
      storeStatus { s with lastCheckpoint := first, currentCheckpoints := cps.map some }
        StatusActive
    match cps with
    | [] => { outcome := Outcome.panic, state := s', effects := [] }
    | _ :: _ => { outcome := Outcome.nil, state := s', effects := [] }

/-- Go `func (s *State) UpdateCheckpoints(height uint, hash string) error`. -/
def UpdateCheckpoints (w : World) (s : State) (height : Nat) (hash : String) : Round :=
  let s1 : State := storeStatus s StatusSync
  match w.GetCheckpoints s1.providers height hash with
  | Except.error err => { outcome := Outcome.error err, state := s1, effects := [] }
  | Except.ok cps =>
    if (cps.length : Int) < s1.minimalCheckpoint then
      { outcome := Outcome.error "not enough cps fetched", state := s1, effects := [] }
    else if Inconsistent cps then reconcile w s1 height cps
    else adopt s1 cps

end states

/-! ## Concrete rounds

The literal scenarios of the specification (three providers at height `100`,
block hash `h100`, commitments `X`, `Y`, `Z`), used to evaluate the
definitions above. -/

namespace scenario

open states configs checkpoints

/-- The checkpoint of provider `name` (also its URL) with the given commitment. -/
def checkpointOf (commitment name : String) : CheckpointExport :=
  { Checkpoint :=
      { Commitment := commitment, Hash := "h100", Height := "100", Name := name, URL := name } }

/-- A transfer whose only meaningful field says which commitment the proof it
belongs to replays to. -/
def transferTo (postRoot : String) : apis.OrdTransferJSON :=
  { ID := 0, InscriptionID := postRoot, OldSatpoint := "", NewSatpoint := "", NewPkscript := "",
    NewWallet := "", SentAsFee := false, Content := "", ContentType := "" }

/-- A world in which the fetcher returns `fetched`, every provider `url`
answers the committee RPC with a proof of `(proofs url).1` transfers that
replays to the commitment `(proofs url).2`, the Bitcoin cross-check accepts, and
results arrive in the order given by `arrival`. -/
def world (fetched : Except String (List CheckpointExport)) (proofs : String → Nat × String)
    (arrival : String → Nat) : World :=
  { GetCheckpoints := fun _ _ _ => fetched
    committeeNew := fun _ => true
    LatestStateProof := fun url =>
      Except.ok
        { Error := none
          Result := { OrdTransfers := List.replicate (proofs url).1 (transferTo (proofs url).2) } }
    DecodeString := fun _ => some []
    EncodeToString := fun bytes => String.mk (bytes.map Char.ofNat)
    VerifyOrdTransfer := fun _ _ => Except.ok true
    SetBytes := fun bytes => some { bytes := bytes }
    GeneratePostRoot := fun _ _ stateProof =>
      match stateProof.Result.OrdTransfers with
      | [] => Except.ok none
      | tran :: _ => Except.ok (some { commitBytes := tran.InscriptionID.data.map Char.toNat })
    arrival := arrival }

/-- A state in the middle of a run: last checkpoint `L`, one current checkpoint
`C`, quorum `minimalCheckpoint`, three providers, deny list at `/deny`. -/
def running (minimalCheckpoint : Int) : State :=
  { State := StatusActive
    denyListPath := "/deny"
    providers := [{ id := "a" }, { id := "b" }, { id := "c" }]
    lastCheckpoint := some (checkpointOf "L" "a")
    currentCheckpoints := [some (checkpointOf "C" "a")]
    minimalCheckpoint := minimalCheckpoint
    timeout := 5 }

/-- Scenario 1, consistent trio: three providers return the same commitment. -/
def consistentTrio : World :=
  world (Except.ok [checkpointOf "AAA=" "a", checkpointOf "AAA=" "b", checkpointOf "AAA=" "c"])
    (fun _ => (0, "")) (fun _ => 0)

/-- Scenario 2, sub-quorum: only two providers respond. -/
def subQuorum : World :=
  world (Except.ok [checkpointOf "X" "a", checkpointOf "X" "b"]) (fun _ => (0, "")) (fun _ => 0)

/-- A round whose fetch fails. -/
def fetchFails : World :=
  world (Except.error "fetch failed") (fun _ => (0, "")) (fun _ => 0)

/-- Scenario 4, inconsistent, one verifies: providers return `X, X, Y`; the
proof of `Y` replays to `Y` (3 transfers), the proof of `X` replays to `Z`. -/
def oneVerifies : World :=
  world (Except.ok [checkpointOf "X" "a", checkpointOf "X" "b", checkpointOf "Y" "c"])
    (fun url => if url = "c" then (3, "Y") else (2, "Z")) (fun _ => 0)

/-- Scenario 6, all verifications fail: commitments `X, Y`; both proofs replay
to `Z`. -/
def noneVerifies : World :=
  world (Except.ok [checkpointOf "X" "a", checkpointOf "Y" "b", checkpointOf "Y" "c"])
    (fun _ => (1, "Z")) (fun _ => 0)

/-- Three commitments `X, Y, Z`, all of which replay correctly, with 5, 10 and
7 transfers; results arrive in the order `X, Y, Z`. -/
def threeVerify : World :=
  world (Except.ok [checkpointOf "X" "a", checkpointOf "Y" "b", checkpointOf "Z" "c"])
    (fun url => if url = "a" then (5, "X") else if url = "b" then (10, "Y") else (7, "Z"))
    (fun commitment => if commitment = "X" then 0 else if commitment = "Y" then 1 else 2)

/-- Scenario 5 with the result of `Y` arriving first: commitments `X, Y`, both
replay correctly, `Y` has 10 transfers and `X` has 7. -/
def championFirst : World :=
  world (Except.ok [checkpointOf "X" "a", checkpointOf "Y" "b", checkpointOf "Y" "c"])
    (fun url => if url = "a" then (7, "X") else (10, "Y"))
    (fun commitment => if commitment = "Y" then 0 else 1)

/-- The state that `New` builds for three providers, with the trusted
checkpoint `L` and quorum 3: three nil current checkpoints. -/
def fresh : State :=
  New "/deny" [{ id := "a" }, { id := "b" }, { id := "c" }] (some (checkpointOf "L" "a")) 3 5

/-- The state that `New` builds for an empty provider list, with the trusted
checkpoint `L` and quorum 3: its current checkpoint list is empty. -/
def noProviders : State :=
  New "/deny" [] (some (checkpointOf "L" "a")) 3 5

/-- The running state with an empty current checkpoint list. -/
def emptied : State :=
  { running 3 with currentCheckpoints := [] }

/-- A round in which no provider responds: the fetcher returns the empty list
without an error. -/
def nothingFetched : World :=
  world (Except.ok []) (fun _ => (0, "")) (fun _ => 0)

end scenario

namespace states

open configs

/-- The checkpoints handed to `checkpoints.Deny` as rejected, in order. -/
def deniedCheckpoints (effects : List Effect) : List CheckpointExport :=
  effects.filterMap
    (fun e =>
      match e with
      | Effect.Deny _ _ rejected => some rejected
      | _ => none)

end states

/-! ## Parsing and the inscription identifier -/

namespace strconv

theorem digitChar_spec (d : Nat) (hd : d < 10) :
    ('0' ≤ digitChar d ∧ digitChar d ≤ '9') ∧ (digitChar d).toNat - '0'.toNat = d ∧
      digitChar d ≠ 'i' ∧ digitChar d ≠ '-' ∧ digitChar d ≠ '+' := by
  interval_cases d <;> decide

theorem parseUintLoop_append (maxVal : Nat) (xs ys : List Char) (n : Nat) :
    parseUintLoop maxVal (xs ++ ys) n =
      match parseUintLoop maxVal xs n with
      | (v, none) => parseUintLoop maxVal ys v
      | r => r := by
  induction xs generalizing n with
  | nil => simp [parseUintLoop]
  | cons c cs ih =>
    simp only [List.cons_append, parseUintLoop]
    split_ifs <;> simp [ih]

theorem parseUintLoop_step (maxVal : Nat) (hmax : maxVal < 2 ^ 64) (v d : Nat) (hd : d < 10)
    (hv : v * 10 + d ≤ maxVal) :
    parseUintLoop maxVal [digitChar d] v = (v * 10 + d, none) := by
  obtain ⟨hrange, hval, -⟩ := digitChar_spec d hd
  have h64 : (2 : Nat) ^ 64 = 18446744073709551616 := by norm_num
  have hcut : ¬ v ≥ maxUint64 / 10 + 1 := by
    unfold maxUint64
    omega
  have h10 : v * 10 % 2 ^ 64 = v * 10 := Nat.mod_eq_of_lt (by omega)
  have h1 : (v * 10 + d) % 2 ^ 64 = v * 10 + d := Nat.mod_eq_of_lt (by omega)
  simp only [parseUintLoop, hrange, and_self, if_true, hcut, if_false, hval, h10, h1]
  have : ¬ (v * 10 + d < v * 10 ∨ v * 10 + d > maxVal) := by omega
  rw [if_neg this]

theorem parseUintLoop_natText (maxVal : Nat) (hmax : maxVal < 2 ^ 64) (n : Nat) (hn : n ≤ maxVal) :
    parseUintLoop maxVal (natText n) 0 = (n, none) := by
  induction n using Nat.strong_induction_on with
  | _ n ih =>
    rw [natText]
    split_ifs with h
    · have := parseUintLoop_step maxVal hmax 0 n h (by omega)
      simpa using this
    · rw [parseUintLoop_append, ih (n / 10) (by omega) (by omega)]
      have := parseUintLoop_step maxVal hmax (n / 10) (n % 10) (by omega) (by omega)
      simp only [this]
      congr 1
      omega

theorem natText_head (n : Nat) :
    ∃ c cs, natText n = c :: cs ∧ c ≠ '+' ∧ c ≠ '-' := by
  induction n using Nat.strong_induction_on with
  | _ n ih =>
    rw [natText]
    split_ifs with h
    · exact ⟨_, [], rfl, (digitChar_spec n h).2.2.2.2, (digitChar_spec n h).2.2.2.1⟩
    · obtain ⟨c, cs, hc, h1, h2⟩ := ih (n / 10) (by omega)
      exact ⟨c, cs ++ [digitChar (n % 10)], by simp [hc], h1, h2⟩

theorem natText_no_sep (n : Nat) : 'i' ∉ natText n := by
  induction n using Nat.strong_induction_on with
  | _ n ih =>
    rw [natText]
    split_ifs with h
    · simpa using (digitChar_spec n h).2.2.1.symm
    · have := (digitChar_spec (n % 10) (by omega)).2.2.1.symm
      simp [ih (n / 10) (by omega), this]

theorem ParseUint_natText (bitSize : Nat) (hb : bitSize ≤ 64) (n : Nat) (hn : n < 2 ^ bitSize) :
    ParseUint (natText n) bitSize = (n, none) := by
  obtain ⟨c, cs, hc, -⟩ := natText_head n
  have hpow : 2 ^ bitSize ≤ 2 ^ 64 := Nat.pow_le_pow_right (by norm_num) hb
  have hpos : 0 < 2 ^ bitSize := Nat.pos_pow_of_pos _ (by norm_num)
  unfold ParseUint
  rw [if_neg (by simp [hc])]
  exact parseUintLoop_natText _ (by omega) n (by omega)

theorem ParseInt_intText (n : Int) (hlo : -2 ^ 31 ≤ n) (hhi : n < 2 ^ 31) :
    ParseInt (intText n) 32 = (n, none) := by
  unfold intText
  split_ifs with hneg
  · have hu := ParseUint_natText 32 (by norm_num) n.natAbs (by omega)
    simp only [ParseInt, or_true, if_true]
    rw [hu]
    have hle : ¬ (2147483648 < n.natAbs) := by omega
    simp [hle, -Int.natCast_natAbs]
    omega
  · obtain ⟨c, cs, hc, h1, h2⟩ := natText_head n.natAbs
    have hu := ParseUint_natText 32 (by norm_num) n.natAbs (by omega)
    rw [hc] at hu
    simp only [ParseInt, hc]
    simp only [h1, h2, or_self, if_false]
    rw [hu]
    have hle : ¬ (2147483648 ≤ n.natAbs) := by omega
    simp [h2, hle, -Int.natCast_natAbs]
    omega

end strconv

namespace strings

theorem Split_no_sep (sep : Char) (xs : List Char) (h : sep ∉ xs) : Split sep xs = [xs] := by
  induction xs with
  | nil => rfl
  | cons c cs ih =>
    have hc : c ≠ sep := fun e => h (by simp [e])
    have hcs : sep ∉ cs := fun e => h (by simp [e])
    simp [Split, hc, ih hcs]

theorem Split_two (sep : Char) (xs ys : List Char) (hx : sep ∉ xs) (hy : sep ∉ ys) :
    Split sep (xs ++ sep :: ys) = [xs, ys] := by
  induction xs with
  | nil => simp [Split, Split_no_sep sep ys hy]
  | cons c cs ih =>
    have hc : c ≠ sep := fun e => hx (by simp [e])
    have hcs : sep ∉ cs := fun e => hx (by simp [e])
    simp [Split, hc, ih hcs]

end strings

namespace ordi

/-- C9, InscriptionID round trip: for every `txid` without the character `i`
and every `n` representable in a signed 32-bit integer, `InsFromStr` applied to
`txid`, then `i`, then the base-10 text of `n`, returns
`InscriptionID{TxID: txid, Index: n}`. -/
theorem InsFromStr_roundtrip (txid : String) (n : Int) (htx : 'i' ∉ txid.data)
    (hlo : -2 ^ 31 ≤ n) (hhi : n < 2 ^ 31) :
    InsFromStr (txid ++ "i" ++ String.mk (strconv.intText n)) =
      some { TxID := txid, Index := n } := by
  have hsep : 'i' ∉ strconv.intText n := by
    unfold strconv.intText
    split_ifs
    · simp [strconv.natText_no_sep]
    · exact strconv.natText_no_sep _
  have hdata : (txid ++ "i" ++ String.mk (strconv.intText n)).data =
      txid.data ++ 'i' :: strconv.intText n := by
    simp [String.data_append]
  unfold InsFromStr
  simp only [hdata, strings.Split_two 'i' _ _ htx hsep, strconv.ParseInt_intText n hlo hhi]

/-- C9 at the specification's example: `abcdi3` parses to txid `abcd`, index `3`. -/
theorem InsFromStr_roundtrip_witness :
    InsFromStr "abcdi3" = some { TxID := "abcd", Index := 3 } := by
  have h := InsFromStr_roundtrip "abcd" 3 (by decide) (by decide) (by decide)
  have ht : strconv.intText 3 = ['3'] := by
    simp [strconv.intText, strconv.natText]
    decide
  rw [ht] at h
  exact h
end ordi

namespace states
open configs checkpoints

/-! ### The map `aggregates` -/

theorem aggregate_foldl_lookup (cps : List CheckpointExport)
    (acc : List (String × CheckpointExport)) (c : String) :
    (cps.foldl
        (fun aggregates ck =>
          if (aggregates.lookup ck.Checkpoint.Commitment).isSome then aggregates
          else aggregates ++ [(ck.Checkpoint.Commitment, ck)])
        acc).lookup c =
      (acc.lookup c).or (cps.find? (fun ck => ck.Checkpoint.Commitment == c)) := by
  induction cps generalizing acc with
  | nil => simp
  | cons ck rest ih =>
    simp only [List.foldl_cons, ih]
    by_cases hk : (acc.lookup ck.Checkpoint.Commitment).isSome
    · simp only [hk, if_true]
      by_cases hc : ck.Checkpoint.Commitment = c
      · subst hc
        obtain ⟨v, hv⟩ := Option.isSome_iff_exists.1 hk
        simp [hv]
      · simp [List.find?_cons, hc]
    · simp only [hk, Bool.false_eq_true, if_false, List.lookup_append]
      by_cases hc : ck.Checkpoint.Commitment = c
      · subst hc
        have hnone : acc.lookup ck.Checkpoint.Commitment = none :=
          Option.not_isSome_iff_eq_none.1 hk
        simp [hnone, List.find?_cons, List.lookup_cons]
      · have hne : (c == ck.Checkpoint.Commitment) = false := by
          simpa using fun e => hc e.symm
        simp [List.find?_cons, hc, List.lookup_cons, hne]

theorem aggregate_lookup (cps : List CheckpointExport) (c : String) :
    (aggregate cps).lookup c = cps.find? (fun ck => ck.Checkpoint.Commitment == c) := by
  unfold aggregate
  rw [aggregate_foldl_lookup]
  simp

theorem aggregate_foldl_nodup (cps : List CheckpointExport)
    (acc : List (String × CheckpointExport)) (hacc : (acc.map Prod.fst).Nodup) :
    ((cps.foldl
        (fun aggregates ck =>
          if (aggregates.lookup ck.Checkpoint.Commitment).isSome then aggregates
          else aggregates ++ [(ck.Checkpoint.Commitment, ck)])
        acc).map Prod.fst).Nodup := by
  induction cps generalizing acc with
  | nil => simpa using hacc
  | cons ck rest ih =>
    simp only [List.foldl_cons]
    apply ih
    by_cases hk : (acc.lookup ck.Checkpoint.Commitment).isSome
    · simpa [hk] using hacc
    · have hnone : acc.lookup ck.Checkpoint.Commitment = none :=
        Option.not_isSome_iff_eq_none.1 hk
      rw [List.lookup_eq_none_iff] at hnone
      simp only [hk, Bool.false_eq_true, if_false, List.map_append, List.map_cons, List.map_nil]
      rw [List.nodup_append]
      refine ⟨hacc, by simp, ?_⟩
      intro a ha hb
      simp only [List.mem_singleton] at hb
      subst hb
      obtain ⟨p, hp, hpe⟩ := List.mem_map.1 ha
      simpa [hpe] using hnone p hp

theorem aggregate_nodup (cps : List CheckpointExport) :
    ((aggregate cps).map Prod.fst).Nodup :=
  aggregate_foldl_nodup cps [] (by simp)

theorem lookup_of_mem_nodup {l : List (String × CheckpointExport)}
    (hl : (l.map Prod.fst).Nodup) {k : String} {v : CheckpointExport} (h : (k, v) ∈ l) :
    l.lookup k = some v := by
  induction l with
  | nil => simp at h
  | cons p rest ih =>
    obtain ⟨k', v'⟩ := p
    simp only [List.map_cons, List.nodup_cons] at hl
    rcases List.mem_cons.1 h with heq | hmem
    · cases heq
      simp
    · have hne : k ≠ k' := by
        rintro rfl
        exact hl.1 (List.mem_map.2 ⟨(k, v), hmem, rfl⟩)
      have : (k == k') = false := by simpa using hne
      simp [List.lookup_cons, this, ih hl.2 hmem]

/-- Every entry of the map is the first fetched checkpoint with its commitment. -/
theorem aggregate_entry {cps : List CheckpointExport} {entry : String × CheckpointExport}
    (h : entry ∈ aggregate cps) :
    cps.find? (fun ck => ck.Checkpoint.Commitment == entry.1) = some entry.2 ∧
      entry.2.Checkpoint.Commitment = entry.1 ∧ entry.2 ∈ cps := by
  have hl := lookup_of_mem_nodup (aggregate_nodup cps) (k := entry.1) (v := entry.2) h
  rw [aggregate_lookup] at hl
  refine ⟨hl, ?_, List.mem_of_find?_eq_some hl⟩
  simpa using List.find?_some hl

/-! ### Verification tasks -/

theorem replayProof_crash {w : World} {lastCheckpoint : Option CheckpointExport} {height : Nat}
    {commit : String} {ck : checkpoint.Checkpoint} {stateProof : apis.StateProof}
    {ordTransfers : List getter.OrdTransfer}
    (h : (replayProof w lastCheckpoint height commit ck stateProof ordTransfers).1 =
      Verdict.crash) :
    lastCheckpoint = none := by
  revert h
  simp only [replayProof]
  repeat' split
  all_goals simp

theorem replayProof_verified {w : World} {lastCheckpoint : Option CheckpointExport}
    {height : Nat} {commit : String} {ck : checkpoint.Checkpoint} {stateProof : apis.StateProof}
    {ordTransfers : List getter.OrdTransfer} {n : Nat}
    (h : (replayProof w lastCheckpoint height commit ck stateProof ordTransfers).1 =
      Verdict.verified n) :
    lastCheckpoint ≠ none := by
  revert h
  simp only [replayProof]
  repeat' split
  all_goals simp

theorem replayProof_no_deny (w : World) (lastCheckpoint : Option CheckpointExport)
    (height : Nat) (commit : String) (ck : checkpoint.Checkpoint) (stateProof : apis.StateProof)
    (ordTransfers : List getter.OrdTransfer)
    (path : String) (trusted : Option CheckpointExport) (rejected : CheckpointExport) :
    Effect.Deny path trusted rejected ∉
      (replayProof w lastCheckpoint height commit ck stateProof ordTransfers).2 := by
  simp only [replayProof]
  repeat' split
  all_goals simp

theorem verifyCommit_crash {w : World} {lastCheckpoint : Option CheckpointExport} {height : Nat}
    {commit : String} {ck : checkpoint.Checkpoint}
    (h : (verifyCommit w lastCheckpoint height commit ck).1 = Verdict.crash) :
    lastCheckpoint = none := by
  revert h
  simp only [verifyCommit]
  repeat' split
  all_goals first
    | exact replayProof_crash
    | simp

theorem verifyCommit_verified {w : World} {lastCheckpoint : Option CheckpointExport}
    {height : Nat} {commit : String} {ck : checkpoint.Checkpoint} {n : Nat}
    (h : (verifyCommit w lastCheckpoint height commit ck).1 = Verdict.verified n) :
    lastCheckpoint ≠ none := by
  revert h
  simp only [verifyCommit]
  repeat' split
  all_goals first
    | exact replayProof_verified
    | simp

theorem verifyCommit_no_deny (w : World) (lastCheckpoint : Option CheckpointExport)
    (height : Nat) (commit : String) (ck : checkpoint.Checkpoint)
    (path : String) (trusted : Option CheckpointExport) (rejected : CheckpointExport) :
    Effect.Deny path trusted rejected ∉ (verifyCommit w lastCheckpoint height commit ck).2 := by
  simp only [verifyCommit]
  repeat' split
  all_goals first
    | exact replayProof_no_deny _ _ _ _ _ _ _ _ _ _
    | simp

theorem verifyEffects_no_deny (w : World) (lastCheckpoint : Option CheckpointExport)
    (height : Nat) (aggregates : List (String × CheckpointExport))
    (path : String) (trusted : Option CheckpointExport) (rejected : CheckpointExport) :
    Effect.Deny path trusted rejected ∉ verifyEffects w lastCheckpoint height aggregates := by
  unfold verifyEffects
  simp only [List.mem_flatten, List.mem_map, not_exists, not_and]
  rintro l ⟨entry, -, rfl⟩
  exact verifyCommit_no_deny w lastCheckpoint height entry.1 entry.2.Checkpoint path trusted rejected

theorem sentBy_some {w : World} {lastCheckpoint : Option CheckpointExport} {height : Nat}
    {entry : String × CheckpointExport} {x : succCommit}
    (h : sentBy w lastCheckpoint height entry = some x) :
    x.commitment = entry.1 ∧
      (verifyCommit w lastCheckpoint height entry.1 entry.2.Checkpoint).1 =
        Verdict.verified x.transferLen := by
  unfold sentBy at h
  split at h
  · rename_i n hn
    simp only [Option.some.injEq] at h
    subst h
    exact ⟨rfl, hn⟩
  · simp at h

theorem sentBy_of_verified {w : World} {lastCheckpoint : Option CheckpointExport} {height : Nat}
    {entry : String × CheckpointExport} {n : Nat}
    (h : (verifyCommit w lastCheckpoint height entry.1 entry.2.Checkpoint).1 = Verdict.verified n) :
    sentBy w lastCheckpoint height entry = some { commitment := entry.1, transferLen := n } := by
  unfold sentBy
  rw [h]

theorem mem_collectSuccVerify {w : World} {lastCheckpoint : Option CheckpointExport}
    {height : Nat} {aggregates : List (String × CheckpointExport)} {x : succCommit} :
    x ∈ collectSuccVerify w lastCheckpoint height aggregates ↔
      ∃ entry ∈ aggregates, sentBy w lastCheckpoint height entry = some x := by
  unfold collectSuccVerify
  rw [List.mem_insertionSort, List.mem_filterMap]

theorem sent_commitments_sublist (w : World) (lastCheckpoint : Option CheckpointExport)
    (height : Nat) (aggregates : List (String × CheckpointExport)) :
    ((aggregates.filterMap (sentBy w lastCheckpoint height)).map (fun x => x.commitment)).Sublist
      (aggregates.map Prod.fst) := by
  induction aggregates with
  | nil => simp
  | cons entry rest ih =>
    cases hs : sentBy w lastCheckpoint height entry with
    | none =>
      simp only [List.filterMap_cons, hs, List.map_cons]
      exact List.Sublist.cons _ ih
    | some x =>
      simp only [List.filterMap_cons, hs, List.map_cons]
      rw [(sentBy_some hs).1]
      exact List.Sublist.cons₂ _ ih

theorem collectSuccVerify_nodup (w : World) (lastCheckpoint : Option CheckpointExport)
    (height : Nat) (cps : List CheckpointExport) :
    ((collectSuccVerify w lastCheckpoint height (aggregate cps)).map
      (fun x => x.commitment)).Nodup := by
  have hsub := sent_commitments_sublist w lastCheckpoint height (aggregate cps)
  have hnd := List.Nodup.sublist hsub (aggregate_nodup cps)
  unfold collectSuccVerify
  exact ((List.perm_insertionSort _ _).map _).nodup_iff.2 hnd

/-! ### Champion selection -/

theorem championLoop_seemRight (rest : List succCommit) (i maxTransfer champion : Nat)
    (seemRight : List String) :
    (championLoop rest i maxTransfer champion seemRight).2 =
      seemRight ++ rest.map (fun x => x.commitment) := by
  induction rest generalizing i maxTransfer champion seemRight with
  | nil => simp [championLoop]
  | cons c rest ih =>
    simp only [championLoop]
    split_ifs <;> simp [ih]

theorem championLoop_spec (rest pre : List succCommit) (maxTransfer champion : Nat)
    (seemRight : List String) (c0 : succCommit)
    (hc : pre[champion]? = some c0) (hmax : c0.transferLen = maxTransfer)
    (hle : ∀ x ∈ pre, x.transferLen ≤ maxTransfer)
    (hlt : ∀ j x, j < champion → pre[j]? = some x → x.transferLen < maxTransfer) :
    ∃ c, (pre ++ rest)[(championLoop rest pre.length maxTransfer champion seemRight).1]? = some c ∧
      (∀ x ∈ pre ++ rest, x.transferLen ≤ c.transferLen) ∧
      (∀ j x, j < (championLoop rest pre.length maxTransfer champion seemRight).1 →
        (pre ++ rest)[j]? = some x → x.transferLen < c.transferLen) := by
  induction rest generalizing pre maxTransfer champion seemRight c0 with
  | nil =>
    refine ⟨c0, by simpa [championLoop] using hc, ?_, ?_⟩
    · intro x hx
      rw [hmax]
      exact hle x (by simpa using hx)
    · intro j x hj hx
      rw [hmax]
      exact hlt j x (by simpa [championLoop] using hj) (by simpa using hx)
  | cons c rest ih =>
    have hchamp : champion < pre.length := by
      by_contra hcon
      rw [List.getElem?_eq_none (by omega)] at hc
      simp at hc
    have hlen : (pre ++ [c]).length = pre.length + 1 := by simp
    have happ : pre ++ c :: rest = (pre ++ [c]) ++ rest := by simp
    simp only [championLoop]
    split_ifs with hgt
    · have := ih (pre ++ [c]) c.transferLen pre.length (seemRight ++ [c.commitment]) c
        (by simp) rfl
        (by
          intro x hx
          rcases List.mem_append.1 hx with h | h
          · exact le_trans (hle x h) (le_of_lt hgt)
          · simp only [List.mem_singleton] at h
            subst h
            exact le_refl _)
        (by
          intro j x hj hx
          rw [List.getElem?_append_left hj] at hx
          exact lt_of_le_of_lt (hle x (List.getElem?_mem hx)) hgt)
      rw [hlen] at this
      rw [happ]
      exact this
    · have := ih (pre ++ [c]) maxTransfer champion (seemRight ++ [c.commitment]) c0
        (by rw [List.getElem?_append_left hchamp]; exact hc) hmax
        (by
          intro x hx
          rcases List.mem_append.1 hx with h | h
          · exact hle x h
          · simp only [List.mem_singleton] at h
            subst h
            exact not_lt.1 hgt)
        (by
          intro j x hj hx
          rw [List.getElem?_append_left (by omega)] at hx
          exact hlt j x hj hx)
      rw [hlen] at this
      rw [happ]
      exact this

theorem selectChampion_spec (succVerify : List succCommit) (hne : succVerify ≠ []) :
    ∃ champion seemRight c,
      selectChampion succVerify = some (champion, seemRight) ∧
      succVerify[champion]? = some c ∧
      seemRight = succVerify.tail.map (fun x => x.commitment) ∧
      (∀ x ∈ succVerify, x.transferLen ≤ c.transferLen) ∧
      (∀ j x, j < champion → succVerify[j]? = some x → x.transferLen < c.transferLen) := by
  cases succVerify with
  | nil => exact absurd rfl hne
  | cons first rest =>
    obtain ⟨c, h1, h2, h3⟩ := championLoop_spec rest [first] first.transferLen 0 [] first
      (by simp) rfl (by simp) (by simp)
    refine ⟨_, _, c, rfl, by simpa using h1, ?_, by simpa using h2, ?_⟩
    · simp [championLoop_seemRight]
    · intro j x hj hx
      exact h3 j x (by simpa using hj) (by simpa using hx)

/-! ### Deny-list writes -/

theorem mem_denyWrites {denyListPath : String} {seemRight : List String}
    {trusted : Option CheckpointExport} {cps : List CheckpointExport} {e : Effect} :
    e ∈ denyWrites denyListPath seemRight trusted cps ↔
      ∃ ck ∈ cps, ck.Checkpoint.Commitment ∉ seemRight ∧ denyListPath ≠ "" ∧
        e = Effect.Deny denyListPath trusted ck := by
  unfold denyWrites
  simp only [List.mem_filterMap]
  constructor
  · rintro ⟨ck, hck, h⟩
    split_ifs at h with hc
    · simp only [Option.some.injEq] at h
      exact ⟨ck, hck, by simpa using hc.1, hc.2, h.symm⟩
  · rintro ⟨ck, hck, h1, h2, rfl⟩
    refine ⟨ck, hck, ?_⟩
    rw [if_pos]
    exact ⟨by simpa using h1, h2⟩

/-! ### The inconsistent branch -/

theorem any_crash_eq_false {w : World} {lastCheckpoint : Option CheckpointExport} {height : Nat}
    {aggregates : List (String × CheckpointExport)}
    (h : ∀ entry ∈ aggregates,
      (verifyCommit w lastCheckpoint height entry.1 entry.2.Checkpoint).1 ≠ Verdict.crash) :
    aggregates.any
      (fun entry =>
        decide ((verifyCommit w lastCheckpoint height entry.1 entry.2.Checkpoint).1 =
          Verdict.crash)) = false := by
  rw [List.any_eq_false]
  intro entry hentry
  simpa using h entry hentry

/-- The inconsistent branch when no task panics, the collected list has a
champion, the state has a current first checkpoint and the map holds the
champion's commitment. -/
theorem reconcile_success {w : World} {s : State} {height : Nat} {cps : List CheckpointExport}
    {champion : Nat} {seemRight : List String} {trust : succCommit}
    {first : Option CheckpointExport} {rest : List (Option CheckpointExport)}
    {ck : CheckpointExport}
    (hcrash : ∀ entry ∈ aggregate cps,
      (verifyCommit w s.lastCheckpoint height entry.1 entry.2.Checkpoint).1 ≠ Verdict.crash)
    (hsel : selectChampion (collectSuccVerify w s.lastCheckpoint height (aggregate cps)) =
      some (champion, seemRight))
    (hidx : (collectSuccVerify w s.lastCheckpoint height (aggregate cps))[champion]? = some trust)
    (hcur : s.currentCheckpoints = first :: rest)
    (hlook : (aggregate cps).lookup trust.commitment = some ck) :
    reconcile w s height cps =
      { outcome := Outcome.nil
        state :=
          storeStatus { s with lastCheckpoint := first, currentCheckpoints := [some ck] }
            StatusActive
        effects :=
          verifyEffects w s.lastCheckpoint height (aggregate cps) ++
            denyWrites s.denyListPath seemRight (some ck) cps } := by
  unfold reconcile
  simp only [any_crash_eq_false hcrash, Bool.false_eq_true, if_false, hsel, hidx, hcur, hlook]

/-- What a `nil` return of the inconsistent branch tells. -/
theorem reconcile_nil_inv {w : World} {s : State} {height : Nat} {cps : List CheckpointExport}
    (h : (reconcile w s height cps).outcome = Outcome.nil) :
    ∃ champion seemRight trust first rest ck,
      selectChampion (collectSuccVerify w s.lastCheckpoint height (aggregate cps)) =
        some (champion, seemRight) ∧
      (collectSuccVerify w s.lastCheckpoint height (aggregate cps))[champion]? = some trust ∧
      s.currentCheckpoints = first :: rest ∧
      (aggregate cps).lookup trust.commitment = some ck ∧
      reconcile w s height cps =
        { outcome := Outcome.nil
          state :=
            storeStatus { s with lastCheckpoint := first, currentCheckpoints := [some ck] }
              StatusActive
          effects :=
            verifyEffects w s.lastCheckpoint height (aggregate cps) ++
              denyWrites s.denyListPath seemRight (some ck) cps } := by
  by_cases hcrash : ∀ entry ∈ aggregate cps,
      (verifyCommit w s.lastCheckpoint height entry.1 entry.2.Checkpoint).1 ≠ Verdict.crash
  · have hany := any_crash_eq_false hcrash
    cases hsel : selectChampion (collectSuccVerify w s.lastCheckpoint height (aggregate cps)) with
    | none =>
      simp [reconcile, hany, hsel] at h
    | some pair =>
      obtain ⟨champion, seemRight⟩ := pair
      cases hidx : (collectSuccVerify w s.lastCheckpoint height (aggregate cps))[champion]? with
      | none => simp [reconcile, hany, hsel, hidx] at h
      | some trust =>
        cases hcur : s.currentCheckpoints with
        | nil => simp [reconcile, hany, hsel, hidx, hcur] at h
        | cons first rest =>
          cases hlook : (aggregate cps).lookup trust.commitment with
          | none => simp [reconcile, hany, hsel, hidx, hcur, hlook] at h
          | some ck =>
            exact ⟨champion, seemRight, trust, first, rest, ck, rfl, hidx, rfl, hlook,
              reconcile_success hcrash hsel hidx hcur hlook⟩
  · exfalso
    have hany : (aggregate cps).any
        (fun entry =>
          decide ((verifyCommit w s.lastCheckpoint height entry.1 entry.2.Checkpoint).1 =
            Verdict.crash)) = true := by
      rw [List.any_eq_true]
      push_neg at hcrash
      obtain ⟨entry, hentry, hc⟩ := hcrash
      exact ⟨entry, hentry, by simpa using hc⟩
    simp [reconcile, hany] at h

/-- What an error return of the inconsistent branch tells. -/
theorem reconcile_error_inv {w : World} {s : State} {height : Nat} {cps : List CheckpointExport}
    {msg : String} (h : (reconcile w s height cps).outcome = Outcome.error msg) :
    (reconcile w s height cps).state = s ∧
      (reconcile w s height cps).effects =
        verifyEffects w s.lastCheckpoint height (aggregate cps) := by
  revert h
  simp only [reconcile]
  repeat' split
  all_goals simp

/-- The inconsistent branch when every task ends unverified. -/
theorem reconcile_all_failed {w : World} {s : State} {height : Nat} {cps : List CheckpointExport}
    (hfail : ∀ entry ∈ aggregate cps,
      (verifyCommit w s.lastCheckpoint height entry.1 entry.2.Checkpoint).1 =
        Verdict.unverified) :
    reconcile w s height cps =
      { outcome := Outcome.error "all cps verify failed"
        state := s
        effects := verifyEffects w s.lastCheckpoint height (aggregate cps) } := by
  have hcrash : ∀ entry ∈ aggregate cps,
      (verifyCommit w s.lastCheckpoint height entry.1 entry.2.Checkpoint).1 ≠ Verdict.crash := by
    intro entry hentry
    rw [hfail entry hentry]
    simp
  have hsent : (aggregate cps).filterMap (sentBy w s.lastCheckpoint height) = [] := by
    rw [List.filterMap_eq_nil_iff]
    intro entry hentry
    unfold sentBy
    rw [hfail entry hentry]
  have hcollect : collectSuccVerify w s.lastCheckpoint height (aggregate cps) = [] := by
    unfold collectSuccVerify
    rw [hsent]
    rfl
  unfold reconcile
  simp only [any_crash_eq_false hcrash, Bool.false_eq_true, if_false, hcollect, selectChampion]

/-! ### The fetched list -/

theorem Inconsistent_eq_false {cps : List CheckpointExport}
    (h : ∀ a ∈ cps, ∀ b ∈ cps, a.Checkpoint.Commitment = b.Checkpoint.Commitment) :
    Inconsistent cps = false := by
  cases cps with
  | nil => rfl
  | cons first rest =>
    simp only [Inconsistent, List.any_eq_false]
    intro ck hck
    simpa using h ck (List.mem_cons_of_mem _ hck) first (List.mem_cons_self _ _)

/-! ### The four ways through `UpdateCheckpoints` -/

theorem UpdateCheckpoints_fetch_error {w : World} {s : State} {height : Nat} {hash : String}
    {err : String} (hfetch : w.GetCheckpoints s.providers height hash = Except.error err) :
    UpdateCheckpoints w s height hash =
      { outcome := Outcome.error err, state := storeStatus s StatusSync, effects := [] } := by
  unfold UpdateCheckpoints
  simp only [storeStatus, hfetch]

theorem UpdateCheckpoints_short {w : World} {s : State} {height : Nat} {hash : String}
    {cps : List CheckpointExport}
    (hfetch : w.GetCheckpoints s.providers height hash = Except.ok cps)
    (hlen : (cps.length : Int) < s.minimalCheckpoint) :
    UpdateCheckpoints w s height hash =
      { outcome := Outcome.error "not enough cps fetched"
        state := storeStatus s StatusSync
        effects := [] } := by
  unfold UpdateCheckpoints
  simp only [storeStatus, hfetch, hlen, if_true]

theorem UpdateCheckpoints_inconsistent {w : World} {s : State} {height : Nat} {hash : String}
    {cps : List CheckpointExport}
    (hfetch : w.GetCheckpoints s.providers height hash = Except.ok cps)
    (hlen : ¬ (cps.length : Int) < s.minimalCheckpoint) (hinc : Inconsistent cps = true) :
    UpdateCheckpoints w s height hash = reconcile w (storeStatus s StatusSync) height cps := by
  unfold UpdateCheckpoints
  simp only [storeStatus, hfetch, hlen, if_false, hinc, if_true]

theorem UpdateCheckpoints_consistent {w : World} {s : State} {height : Nat} {hash : String}
    {cps : List CheckpointExport}
    (hfetch : w.GetCheckpoints s.providers height hash = Except.ok cps)
    (hlen : ¬ (cps.length : Int) < s.minimalCheckpoint) (hinc : Inconsistent cps = false) :
    UpdateCheckpoints w s height hash = adopt (storeStatus s StatusSync) cps := by
  unfold UpdateCheckpoints
  simp only [storeStatus, hfetch, hlen, if_false, hinc, Bool.false_eq_true]

theorem adopt_eq {s : State} {first : Option CheckpointExport}
    {rest : List (Option CheckpointExport)} {c : CheckpointExport} {cs : List CheckpointExport}
    (hcur : s.currentCheckpoints = first :: rest) :
    adopt s (c :: cs) =
      { outcome := Outcome.nil
        state :=
          storeStatus { s with lastCheckpoint := first, currentCheckpoints := (c :: cs).map some }
            StatusActive
        effects := [] } := by
  unfold adopt
  simp only [hcur]

theorem adopt_nil_inv {s : State} {cps : List CheckpointExport}
    (h : (adopt s cps).outcome = Outcome.nil) :
    ∃ first rest c cs, s.currentCheckpoints = first :: rest ∧ cps = c :: cs := by
  cases hcur : s.currentCheckpoints with
  | nil => simp [adopt, hcur] at h
  | cons first rest =>
    cases cps with
    | nil => simp [adopt, hcur] at h
    | cons c cs => exact ⟨first, rest, c, cs, rfl, rfl⟩

theorem adopt_not_error {s : State} {cps : List CheckpointExport} {msg : String} :
    (adopt s cps).outcome ≠ Outcome.error msg := by
  unfold adopt
  repeat' split
  all_goals simp

/-! ## The claims -/

/-- C1, lagging invariant: on a state whose `currentCheckpoints` is non-empty,
whenever `UpdateCheckpoints` returns `nil` (on either path) the `lastCheckpoint`
read afterwards is the element that `CurrentFirstCheckpoint` returned before the
call. -/
theorem lagging_invariant (w : World) (s : State) (height : Nat) (hash : String)
    (_hne : s.currentCheckpoints ≠ [])
    (hnil : (UpdateCheckpoints w s height hash).outcome = Outcome.nil) :
    CurrentFirstCheckpoint s =
      GoResult.ret (LastCheckpoint (UpdateCheckpoints w s height hash).state) := by
  cases hfetch : w.GetCheckpoints s.providers height hash with
  | error err =>
    rw [UpdateCheckpoints_fetch_error hfetch] at hnil
    simp at hnil
  | ok cps =>
    by_cases hlen : (cps.length : Int) < s.minimalCheckpoint
    · rw [UpdateCheckpoints_short hfetch hlen] at hnil
      simp at hnil
    · cases hinc : Inconsistent cps with
      | true =>
        rw [UpdateCheckpoints_inconsistent hfetch hlen hinc] at hnil ⊢
        obtain ⟨champion, seemRight, trust, first, rest, ck, -, -, hcur, -, heq⟩ :=
          reconcile_nil_inv hnil
        rw [heq]
        have hcur' : s.currentCheckpoints = first :: rest := hcur
        simp [CurrentFirstCheckpoint, LastCheckpoint, storeStatus, hcur']
      | false =>
        rw [UpdateCheckpoints_consistent hfetch hlen hinc] at hnil ⊢
        obtain ⟨first, rest, c, cs, hcur, rfl⟩ := adopt_nil_inv hnil
        rw [adopt_eq hcur]
        have hcur' : s.currentCheckpoints = first :: rest := hcur
        simp [CurrentFirstCheckpoint, LastCheckpoint, storeStatus, hcur']

/-- C1 at scenario 1, the consistent trio. -/
theorem lagging_invariant_witness :
    (scenario.running 3).currentCheckpoints ≠ [] ∧
      (UpdateCheckpoints scenario.consistentTrio (scenario.running 3) 100 "h100").outcome =
        Outcome.nil ∧
      CurrentFirstCheckpoint (scenario.running 3) =
        GoResult.ret (LastCheckpoint
          (UpdateCheckpoints scenario.consistentTrio (scenario.running 3) 100 "h100").state) :=
  ⟨by decide, by decide,
    lagging_invariant scenario.consistentTrio (scenario.running 3) 100 "h100" (by decide)
      (by decide)⟩

/-- Failed rounds are atomic when no verification task panics: if the fetcher
returns fewer than `minimalCheckpoint` checkpoints, or the fetched commitments
disagree and the verification task of every distinct commitment ends without
sending a result, then `UpdateCheckpoints` returns an error, `lastCheckpoint`
and `currentCheckpoints` are what they were before the call, and no deny-list
write is made. -/
theorem failed_round_atomic (w : World) (s : State) (height : Nat) (hash : String)
    (cps : List CheckpointExport)
    (hfetch : w.GetCheckpoints s.providers height hash = Except.ok cps)
    (hfail : (cps.length : Int) < s.minimalCheckpoint ∨
      (Inconsistent cps = true ∧
        ∀ entry ∈ aggregate cps,
          (verifyCommit w s.lastCheckpoint height entry.1 entry.2.Checkpoint).1 =
            Verdict.unverified)) :
    (∃ msg, (UpdateCheckpoints w s height hash).outcome = Outcome.error msg) ∧
      LastCheckpoint (UpdateCheckpoints w s height hash).state = LastCheckpoint s ∧
      CurrentCheckpoints (UpdateCheckpoints w s height hash).state = CurrentCheckpoints s ∧
      ∀ path trusted rejected,
        Effect.Deny path trusted rejected ∉ (UpdateCheckpoints w s height hash).effects := by
  by_cases hlen : (cps.length : Int) < s.minimalCheckpoint
  · rw [UpdateCheckpoints_short hfetch hlen]
    simp [LastCheckpoint, CurrentCheckpoints, storeStatus]
  · rcases hfail with h | ⟨hinc, hall⟩
    · exact absurd h hlen
    · rw [UpdateCheckpoints_inconsistent hfetch hlen hinc,
        reconcile_all_failed (s := storeStatus s StatusSync) hall]
      refine ⟨⟨_, rfl⟩, rfl, rfl, ?_⟩
      intro path trusted rejected
      exact verifyEffects_no_deny _ _ _ _ _ _ _

/-- Scenario 2 (sub-quorum) and scenario 6 (all verifications fail) on the
running state: both rounds return an error, leave the two checkpoint fields as
they were and write nothing to the deny list. -/
theorem failed_round_atomic_witness :
    ((∃ msg, (UpdateCheckpoints scenario.subQuorum (scenario.running 3) 100 "h100").outcome =
          Outcome.error msg) ∧
        LastCheckpoint
            (UpdateCheckpoints scenario.subQuorum (scenario.running 3) 100 "h100").state =
          LastCheckpoint (scenario.running 3) ∧
        CurrentCheckpoints
            (UpdateCheckpoints scenario.subQuorum (scenario.running 3) 100 "h100").state =
          CurrentCheckpoints (scenario.running 3) ∧
        ∀ path trusted rejected,
          Effect.Deny path trusted rejected ∉
            (UpdateCheckpoints scenario.subQuorum (scenario.running 3) 100 "h100").effects) ∧
      ((∃ msg, (UpdateCheckpoints scenario.noneVerifies (scenario.running 3) 100 "h100").outcome =
          Outcome.error msg) ∧
        LastCheckpoint
            (UpdateCheckpoints scenario.noneVerifies (scenario.running 3) 100 "h100").state =
          LastCheckpoint (scenario.running 3) ∧
        CurrentCheckpoints
            (UpdateCheckpoints scenario.noneVerifies (scenario.running 3) 100 "h100").state =
          CurrentCheckpoints (scenario.running 3) ∧
        ∀ path trusted rejected,
          Effect.Deny path trusted rejected ∉
            (UpdateCheckpoints scenario.noneVerifies (scenario.running 3) 100 "h100").effects) :=
  ⟨failed_round_atomic scenario.subQuorum (scenario.running 3) 100 "h100"
      [scenario.checkpointOf "X" "a", scenario.checkpointOf "X" "b"] rfl (Or.inl (by decide)),
    failed_round_atomic scenario.noneVerifies (scenario.running 3) 100 "h100"
      [scenario.checkpointOf "X" "a", scenario.checkpointOf "Y" "b", scenario.checkpointOf "Y" "c"]
      rfl (Or.inr ⟨by decide, by decide⟩)⟩

/-- C2 fails on a state whose `lastCheckpoint` is nil. The state that `New`
builds for three providers holds three nil current checkpoints, so its first
successful round (the consistent trio) returns `nil` and leaves
`lastCheckpoint = nil`. In the next round the commitments disagree and no
commitment verifies (`succVerify` is empty, no deny-list write is made), yet
`UpdateCheckpoints` does not return an error: the verification task
dereferences the nil `lastCheckpoint` and the call panics. -/
theorem failed_round_panics_on_nil_lastCheckpoint :
    (UpdateCheckpoints scenario.consistentTrio scenario.fresh 100 "h100").outcome =
        Outcome.nil ∧
      LastCheckpoint (UpdateCheckpoints scenario.consistentTrio scenario.fresh 100 "h100").state =
        none ∧
      Inconsistent
          [scenario.checkpointOf "X" "a", scenario.checkpointOf "Y" "b",
            scenario.checkpointOf "Y" "c"] = true ∧
      scenario.noneVerifies.GetCheckpoints
          (UpdateCheckpoints scenario.consistentTrio scenario.fresh 100 "h100").state.providers
          100 "h100" =
        Except.ok
          [scenario.checkpointOf "X" "a", scenario.checkpointOf "Y" "b",
            scenario.checkpointOf "Y" "c"] ∧
      collectSuccVerify scenario.noneVerifies
          (UpdateCheckpoints scenario.consistentTrio scenario.fresh 100 "h100").state.lastCheckpoint
          100
          (aggregate
            [scenario.checkpointOf "X" "a", scenario.checkpointOf "Y" "b",
              scenario.checkpointOf "Y" "c"]) = [] ∧
      (UpdateCheckpoints scenario.noneVerifies
          (UpdateCheckpoints scenario.consistentTrio scenario.fresh 100 "h100").state
          100 "h100").outcome = Outcome.panic ∧
      deniedCheckpoints
          (UpdateCheckpoints scenario.noneVerifies
            (UpdateCheckpoints scenario.consistentTrio scenario.fresh 100 "h100").state
            100 "h100").effects = [] :=
  ⟨by decide, by decide, by decide, rfl, by decide, by decide, by decide⟩

/-- C3 as amended, singleton after inconsistency: in a round on a state whose
`currentCheckpoints` is non-empty in which at least `minimalCheckpoint` checkpoints are fetched,
their commitments disagree and at least one distinct commitment verifies,
`UpdateCheckpoints` returns `nil` and `currentCheckpoints` afterwards has
exactly one element; its commitment is the commitment of the champion (the
element of `succVerify` at the selected index), and it is the first checkpoint
of the fetched list with that commitment. -/
theorem singleton_after_inconsistency (w : World) (s : State) (height : Nat) (hash : String)
    (cps : List CheckpointExport)
    (hcur : s.currentCheckpoints ≠ [])
    (hfetch : w.GetCheckpoints s.providers height hash = Except.ok cps)
    (hlen : s.minimalCheckpoint ≤ (cps.length : Int))
    (hinc : Inconsistent cps = true)
    (hver : ∃ entry ∈ aggregate cps, ∃ n,
      (verifyCommit w s.lastCheckpoint height entry.1 entry.2.Checkpoint).1 =
        Verdict.verified n) :
    ∃ champion seemRight trust ck,
      selectChampion (collectSuccVerify w s.lastCheckpoint height (aggregate cps)) =
        some (champion, seemRight) ∧
      (collectSuccVerify w s.lastCheckpoint height (aggregate cps))[champion]? = some trust ∧
      (UpdateCheckpoints w s height hash).outcome = Outcome.nil ∧
      CurrentCheckpoints (UpdateCheckpoints w s height hash).state = [some ck] ∧
      ck.Checkpoint.Commitment = trust.commitment ∧
      cps.find? (fun x => x.Checkpoint.Commitment == trust.commitment) = some ck := by
  obtain ⟨entry, hentry, n, hn⟩ := hver
  have hlast : s.lastCheckpoint ≠ none := verifyCommit_verified hn
  have hcrash : ∀ e ∈ aggregate cps,
      (verifyCommit w (storeStatus s StatusSync).lastCheckpoint height e.1 e.2.Checkpoint).1 ≠
        Verdict.crash := fun e _ hc => hlast (verifyCommit_crash hc)
  have hmem : (⟨entry.1, n⟩ : succCommit) ∈
      collectSuccVerify w s.lastCheckpoint height (aggregate cps) :=
    mem_collectSuccVerify.2 ⟨entry, hentry, sentBy_of_verified hn⟩
  obtain ⟨champion, seemRight, trust, hsel, hidx, -, -, -⟩ :=
    selectChampion_spec _ (List.ne_nil_of_mem hmem)
  obtain ⟨e', he', hsent⟩ := mem_collectSuccVerify.1 (List.getElem?_mem hidx)
  have hkey : trust.commitment = e'.1 := (sentBy_some hsent).1
  have hlook : (aggregate cps).lookup trust.commitment = some e'.2 := by
    rw [hkey]
    exact lookup_of_mem_nodup (aggregate_nodup cps) he'
  obtain ⟨hfind, hcommit, -⟩ := aggregate_entry he'
  obtain ⟨first, rest, hfr⟩ := List.exists_cons_of_ne_nil hcur
  refine ⟨champion, seemRight, trust, e'.2, hsel, hidx, ?_, ?_, ?_, ?_⟩
  · rw [UpdateCheckpoints_inconsistent hfetch (not_lt.2 hlen) hinc,
      reconcile_success (s := storeStatus s StatusSync) hcrash hsel hidx hfr hlook]
  · rw [UpdateCheckpoints_inconsistent hfetch (not_lt.2 hlen) hinc,
      reconcile_success (s := storeStatus s StatusSync) hcrash hsel hidx hfr hlook]
    rfl
  · rw [hcommit, hkey]
  · rw [hkey]
    exact hfind

/-- C3 at scenario 4 (`X, X, Y`, only `Y` verifies). -/
theorem singleton_after_inconsistency_witness :
    ∃ champion seemRight trust ck,
      selectChampion
          (collectSuccVerify scenario.oneVerifies (scenario.running 3).lastCheckpoint 100
            (aggregate
              [scenario.checkpointOf "X" "a", scenario.checkpointOf "X" "b",
                scenario.checkpointOf "Y" "c"])) =
        some (champion, seemRight) ∧
      (collectSuccVerify scenario.oneVerifies (scenario.running 3).lastCheckpoint 100
          (aggregate
            [scenario.checkpointOf "X" "a", scenario.checkpointOf "X" "b",
              scenario.checkpointOf "Y" "c"]))[champion]? = some trust ∧
      (UpdateCheckpoints scenario.oneVerifies (scenario.running 3) 100 "h100").outcome =
        Outcome.nil ∧
      CurrentCheckpoints
          (UpdateCheckpoints scenario.oneVerifies (scenario.running 3) 100 "h100").state =
        [some ck] ∧
      ck.Checkpoint.Commitment = trust.commitment ∧
      [scenario.checkpointOf "X" "a", scenario.checkpointOf "X" "b",
          scenario.checkpointOf "Y" "c"].find?
        (fun x => x.Checkpoint.Commitment == trust.commitment) = some ck :=
  singleton_after_inconsistency scenario.oneVerifies (scenario.running 3) 100 "h100"
    [scenario.checkpointOf "X" "a", scenario.checkpointOf "X" "b", scenario.checkpointOf "Y" "c"]
    (by decide) rfl (by decide) (by decide)
    ⟨("Y", scenario.checkpointOf "Y" "c"), by decide, 3, by decide⟩

/-- C3 as stated fails on a state whose current checkpoint list is empty (the
state that `New` builds for an empty provider list, and the running state with
its list emptied): three checkpoints `X, X, Y` are fetched, which is at least
`minimalCheckpoint = 3`, their commitments disagree and the commitment `Y`
verifies, yet `UpdateCheckpoints` does not return `nil`: the read of
`s.currentCheckpoints[0]` panics. -/
theorem singleton_after_inconsistency_counterexample :
    scenario.oneVerifies.GetCheckpoints scenario.noProviders.providers 100 "h100" =
        Except.ok
          [scenario.checkpointOf "X" "a", scenario.checkpointOf "X" "b",
            scenario.checkpointOf "Y" "c"] ∧
      scenario.noProviders.minimalCheckpoint ≤
        (([scenario.checkpointOf "X" "a", scenario.checkpointOf "X" "b",
          scenario.checkpointOf "Y" "c"].length : Nat) : Int) ∧
      Inconsistent
          [scenario.checkpointOf "X" "a", scenario.checkpointOf "X" "b",
            scenario.checkpointOf "Y" "c"] = true ∧
      ("Y", scenario.checkpointOf "Y" "c") ∈
        aggregate
          [scenario.checkpointOf "X" "a", scenario.checkpointOf "X" "b",
            scenario.checkpointOf "Y" "c"] ∧
      (verifyCommit scenario.oneVerifies scenario.noProviders.lastCheckpoint 100 "Y"
          (scenario.checkpointOf "Y" "c").Checkpoint).1 = Verdict.verified 3 ∧
      (UpdateCheckpoints scenario.oneVerifies scenario.noProviders 100 "h100").outcome =
        Outcome.panic ∧
      (UpdateCheckpoints scenario.oneVerifies scenario.emptied 100 "h100").outcome =
        Outcome.panic :=
  ⟨rfl, by decide, by decide, by decide, by decide, by decide, by decide⟩

/-- C4, champion selection: for every non-empty list of verified results, in
whatever order they were collected, the selected champion has a `transferLen`
greater than or equal to that of every result, and every result before it in
the list has a strictly smaller `transferLen` (so among the results with the
maximal count it is the first). -/
theorem champion_selection (succVerify : List succCommit) (hne : succVerify ≠ []) :
    ∃ champion seemRight c,
      selectChampion succVerify = some (champion, seemRight) ∧
      succVerify[champion]? = some c ∧
      (∀ x ∈ succVerify, x.transferLen ≤ c.transferLen) ∧
      (∀ j x, j < champion → succVerify[j]? = some x → x.transferLen < c.transferLen) := by
  obtain ⟨champion, seemRight, c, h1, h2, -, h3, h4⟩ := selectChampion_spec succVerify hne
  exact ⟨champion, seemRight, c, h1, h2, h3, h4⟩

/-- C4 at a list with a tie for the maximal count: the first of the two wins. -/
theorem champion_selection_witness :
    ∃ champion seemRight c,
      selectChampion [⟨"X", 10⟩, ⟨"Y", 7⟩, ⟨"Z", 10⟩] = some (champion, seemRight) ∧
      ([⟨"X", 10⟩, ⟨"Y", 7⟩, ⟨"Z", 10⟩] : List succCommit)[champion]? = some c ∧
      (∀ x ∈ ([⟨"X", 10⟩, ⟨"Y", 7⟩, ⟨"Z", 10⟩] : List succCommit),
        x.transferLen ≤ c.transferLen) ∧
      (∀ j x, j < champion →
        ([⟨"X", 10⟩, ⟨"Y", 7⟩, ⟨"Z", 10⟩] : List succCommit)[j]? = some x →
          x.transferLen < c.transferLen) :=
  champion_selection [⟨"X", 10⟩, ⟨"Y", 7⟩, ⟨"Z", 10⟩] (by decide)

/-- The deny-list writes of a round that returned `nil` on the inconsistent
path: the new single current checkpoint `ck` is the trusted one, and a fetched
checkpoint is denied exactly when its commitment is not among the commitments of
`succVerify` after the first. -/
theorem inconsistent_round_denies {w : World} {s : State} {height : Nat} {hash : String}
    {cps : List CheckpointExport}
    (hfetch : w.GetCheckpoints s.providers height hash = Except.ok cps)
    (hinc : Inconsistent cps = true)
    (hnil : (UpdateCheckpoints w s height hash).outcome = Outcome.nil)
    (hpath : s.denyListPath ≠ "") :
    ∃ champion trust ck,
      (∃ seemRight,
        selectChampion (collectSuccVerify w s.lastCheckpoint height (aggregate cps)) =
          some (champion, seemRight)) ∧
      (collectSuccVerify w s.lastCheckpoint height (aggregate cps))[champion]? = some trust ∧
      ck.Checkpoint.Commitment = trust.commitment ∧
      CurrentCheckpoints (UpdateCheckpoints w s height hash).state = [some ck] ∧
      ∀ rejected ∈ cps,
        rejected.Checkpoint.Commitment ∉
            (collectSuccVerify w s.lastCheckpoint height (aggregate cps)).tail.map
              (fun x => x.commitment) →
          Effect.Deny s.denyListPath (some ck) rejected ∈
            (UpdateCheckpoints w s height hash).effects := by
  have hlen : ¬ (cps.length : Int) < s.minimalCheckpoint := by
    intro hlt
    rw [UpdateCheckpoints_short hfetch hlt] at hnil
    simp at hnil
  rw [UpdateCheckpoints_inconsistent hfetch hlen hinc] at hnil ⊢
  obtain ⟨champion, seemRight, trust, first, rest, ck, hsel, hidx, -, hlook, heq⟩ :=
    reconcile_nil_inv hnil
  have hsel' : selectChampion (collectSuccVerify w s.lastCheckpoint height (aggregate cps)) =
      some (champion, seemRight) := hsel
  obtain ⟨champion', seemRight', c', hsel2, -, hseem, -, -⟩ :=
    selectChampion_spec _ (List.ne_nil_of_mem (List.getElem?_mem hidx))
  have hsr : seemRight =
      (collectSuccVerify w s.lastCheckpoint height (aggregate cps)).tail.map
        (fun x => x.commitment) := by
    have hpair := hsel'.symm.trans hsel2
    simp only [Option.some.injEq, Prod.mk.injEq] at hpair
    rw [hpair.2]
    exact hseem
  have hcommit : ck.Checkpoint.Commitment = trust.commitment := by
    rw [aggregate_lookup] at hlook
    simpa using List.find?_some hlook
  refine ⟨champion, trust, ck, ⟨seemRight, hsel'⟩, hidx, hcommit, ?_, ?_⟩
  · rw [heq]
    rfl
  · intro rejected hrej hnot
    rw [heq]
    apply List.mem_append_right
    exact mem_denyWrites.2 ⟨rejected, hrej, by rw [hsr]; exact hnot, hpath, rfl⟩

/-- C5 as amended, deny-list completeness for unverified commitments: in every
successful inconsistent round with a non-empty `denyListPath`, every fetched
checkpoint whose commitment is not among the verified commitments (hence
differs from the champion's) is passed to `checkpoints.Deny` together with the
champion's checkpoint, the single new current checkpoint. -/
theorem deny_list_unverified (w : World) (s : State) (height : Nat) (hash : String)
    (cps : List CheckpointExport)
    (hfetch : w.GetCheckpoints s.providers height hash = Except.ok cps)
    (hinc : Inconsistent cps = true)
    (hnil : (UpdateCheckpoints w s height hash).outcome = Outcome.nil)
    (hpath : s.denyListPath ≠ "") :
    ∃ champion trust ck,
      (∃ seemRight,
        selectChampion (collectSuccVerify w s.lastCheckpoint height (aggregate cps)) =
          some (champion, seemRight)) ∧
      (collectSuccVerify w s.lastCheckpoint height (aggregate cps))[champion]? = some trust ∧
      ck.Checkpoint.Commitment = trust.commitment ∧
      CurrentCheckpoints (UpdateCheckpoints w s height hash).state = [some ck] ∧
      ∀ rejected ∈ cps,
        (∀ x ∈ collectSuccVerify w s.lastCheckpoint height (aggregate cps),
          x.commitment ≠ rejected.Checkpoint.Commitment) →
        rejected.Checkpoint.Commitment ≠ ck.Checkpoint.Commitment ∧
          Effect.Deny s.denyListPath (some ck) rejected ∈
            (UpdateCheckpoints w s height hash).effects := by
  obtain ⟨champion, trust, ck, hsel, hidx, hcommit, hcur, hdeny⟩ :=
    inconsistent_round_denies hfetch hinc hnil hpath
  refine ⟨champion, trust, ck, hsel, hidx, hcommit, hcur, ?_⟩
  intro rejected hrej hunver
  refine ⟨?_, hdeny rejected hrej ?_⟩
  · rw [hcommit]
    exact fun h => hunver trust (List.getElem?_mem hidx) h.symm
  · intro hmem
    obtain ⟨x, hx, hxc⟩ := List.mem_map.1 hmem
    exact hunver x (List.mem_of_mem_tail hx) hxc

/-- C5 as amended, at scenario 4 (`X, X, Y`, only `Y` verifies): the two
providers of `X` are denied. -/
theorem deny_list_unverified_witness :
    ∃ champion trust ck,
      (∃ seemRight,
        selectChampion
            (collectSuccVerify scenario.oneVerifies (scenario.running 3).lastCheckpoint 100
              (aggregate
                [scenario.checkpointOf "X" "a", scenario.checkpointOf "X" "b",
                  scenario.checkpointOf "Y" "c"])) =
          some (champion, seemRight)) ∧
      (collectSuccVerify scenario.oneVerifies (scenario.running 3).lastCheckpoint 100
          (aggregate
            [scenario.checkpointOf "X" "a", scenario.checkpointOf "X" "b",
              scenario.checkpointOf "Y" "c"]))[champion]? = some trust ∧
      ck.Checkpoint.Commitment = trust.commitment ∧
      CurrentCheckpoints
          (UpdateCheckpoints scenario.oneVerifies (scenario.running 3) 100 "h100").state =
        [some ck] ∧
      ∀ rejected ∈
          [scenario.checkpointOf "X" "a", scenario.checkpointOf "X" "b",
            scenario.checkpointOf "Y" "c"],
        (∀ x ∈
            collectSuccVerify scenario.oneVerifies (scenario.running 3).lastCheckpoint 100
              (aggregate
                [scenario.checkpointOf "X" "a", scenario.checkpointOf "X" "b",
                  scenario.checkpointOf "Y" "c"]),
          x.commitment ≠ rejected.Checkpoint.Commitment) →
        rejected.Checkpoint.Commitment ≠ ck.Checkpoint.Commitment ∧
          Effect.Deny (scenario.running 3).denyListPath (some ck) rejected ∈
            (UpdateCheckpoints scenario.oneVerifies (scenario.running 3) 100 "h100").effects :=
  deny_list_unverified scenario.oneVerifies (scenario.running 3) 100 "h100"
    [scenario.checkpointOf "X" "a", scenario.checkpointOf "X" "b", scenario.checkpointOf "Y" "c"]
    rfl (by decide) (by decide) (by decide)

/-- C5 as stated fails: in the round `threeVerify` (commitments `X`, `Y`, `Z`
all verify, `Y` is the champion, the deny-list path is non-empty) the round
succeeds on the inconsistent path, the fetched checkpoint of provider `c`
carries `Z`, which differs from the champion's commitment `Y`, and it is not
passed to any deny-list write. -/
theorem deny_list_completeness_counterexample :
    Inconsistent
        [scenario.checkpointOf "X" "a", scenario.checkpointOf "Y" "b",
          scenario.checkpointOf "Z" "c"] = true ∧
      (scenario.running 3).denyListPath ≠ "" ∧
      scenario.threeVerify.GetCheckpoints (scenario.running 3).providers 100 "h100" =
        Except.ok
          [scenario.checkpointOf "X" "a", scenario.checkpointOf "Y" "b",
            scenario.checkpointOf "Z" "c"] ∧
      (UpdateCheckpoints scenario.threeVerify (scenario.running 3) 100 "h100").outcome =
        Outcome.nil ∧
      CurrentCheckpoints
          (UpdateCheckpoints scenario.threeVerify (scenario.running 3) 100 "h100").state =
        [some (scenario.checkpointOf "Y" "b")] ∧
      (scenario.checkpointOf "Z" "c").Checkpoint.Commitment ≠
        (scenario.checkpointOf "Y" "b").Checkpoint.Commitment ∧
      scenario.checkpointOf "Z" "c" ∉
        deniedCheckpoints
          (UpdateCheckpoints scenario.threeVerify (scenario.running 3) 100 "h100").effects :=
  ⟨by decide, by decide, rfl, by decide, by decide, by decide, by decide⟩

/-- C6 as amended, status at the end of a round: a call of `UpdateCheckpoints`
first stores `StatusSync`; when it returns `nil` (consistent adoption or
adoption of a champion) the status is `StatusActive`, and when it returns an
error (fetch error, fewer than `minimalCheckpoint` checkpoints, no commitment
verifying) the status is still `StatusSync`. -/
theorem status_after_round (w : World) (s : State) (height : Nat) (hash : String) :
    ((UpdateCheckpoints w s height hash).outcome = Outcome.nil ∧
        (UpdateCheckpoints w s height hash).state.State = StatusActive) ∨
      ((∃ msg, (UpdateCheckpoints w s height hash).outcome = Outcome.error msg) ∧
        (UpdateCheckpoints w s height hash).state.State = StatusSync) ∨
      (UpdateCheckpoints w s height hash).outcome = Outcome.panic := by
  cases hfetch : w.GetCheckpoints s.providers height hash with
  | error err =>
    rw [UpdateCheckpoints_fetch_error hfetch]
    exact Or.inr (Or.inl ⟨⟨err, rfl⟩, rfl⟩)
  | ok cps =>
    by_cases hlen : (cps.length : Int) < s.minimalCheckpoint
    · rw [UpdateCheckpoints_short hfetch hlen]
      exact Or.inr (Or.inl ⟨⟨_, rfl⟩, rfl⟩)
    · cases hinc : Inconsistent cps with
      | true =>
        rw [UpdateCheckpoints_inconsistent hfetch hlen hinc]
        cases hout : (reconcile w (storeStatus s StatusSync) height cps).outcome with
        | nil =>
          obtain ⟨champion, seemRight, trust, first, rest, ck, -, -, -, -, heq⟩ :=
            reconcile_nil_inv hout
          refine Or.inl ⟨rfl, ?_⟩
          rw [heq]
          rfl
        | error msg =>
          refine Or.inr (Or.inl ⟨⟨msg, rfl⟩, ?_⟩)
          rw [(reconcile_error_inv hout).1]
          rfl
        | panic => exact Or.inr (Or.inr rfl)
      | false =>
        rw [UpdateCheckpoints_consistent hfetch hlen hinc]
        cases hout : (adopt (storeStatus s StatusSync) cps).outcome with
        | nil =>
          obtain ⟨first, rest, c, cs, hcur, rfl⟩ := adopt_nil_inv hout
          refine Or.inl ⟨rfl, ?_⟩
          rw [adopt_eq hcur]
          rfl
        | error msg => exact absurd hout adopt_not_error
        | panic => exact Or.inr (Or.inr rfl)

/-- C6 as stated fails: in the sub-quorum round (two checkpoints fetched,
`minimalCheckpoint = 3`), in the round whose fetch fails and in the round in
which no commitment verifies, `UpdateCheckpoints` returns an error and the
status it leaves is `StatusSync`, not `StatusActive`. -/
theorem status_active_counterexample :
    ((UpdateCheckpoints scenario.subQuorum (scenario.running 3) 100 "h100").outcome =
        Outcome.error "not enough cps fetched" ∧
      (UpdateCheckpoints scenario.subQuorum (scenario.running 3) 100 "h100").state.State =
        StatusSync) ∧
    ((UpdateCheckpoints scenario.fetchFails (scenario.running 3) 100 "h100").outcome =
        Outcome.error "fetch failed" ∧
      (UpdateCheckpoints scenario.fetchFails (scenario.running 3) 100 "h100").state.State =
        StatusSync) ∧
    ((UpdateCheckpoints scenario.noneVerifies (scenario.running 3) 100 "h100").outcome =
        Outcome.error "all cps verify failed" ∧
      (UpdateCheckpoints scenario.noneVerifies (scenario.running 3) 100 "h100").state.State =
        StatusSync) ∧
    StatusSync ≠ StatusActive :=
  ⟨⟨by decide, by decide⟩, ⟨by decide, by decide⟩, ⟨by decide, by decide⟩, by decide⟩

/-- C7 as amended, consistent path: in a round on a state whose
`currentCheckpoints` is non-empty in which at least `minimalCheckpoint`
checkpoints and at least one checkpoint are
fetched and all of their commitments are identical, `UpdateCheckpoints` returns
`nil`, `currentCheckpoints` afterwards is the fetched list (same elements, same
order), and the round has no effect at all: no committee RPC, no proof replay,
no deny-list write. -/
theorem consistent_path (w : World) (s : State) (height : Nat) (hash : String)
    (cps : List CheckpointExport)
    (hcur : s.currentCheckpoints ≠ [])
    (hfetch : w.GetCheckpoints s.providers height hash = Except.ok cps)
    (hlen : s.minimalCheckpoint ≤ (cps.length : Int))
    (hne : cps ≠ [])
    (hsame : ∀ a ∈ cps, ∀ b ∈ cps, a.Checkpoint.Commitment = b.Checkpoint.Commitment) :
    (UpdateCheckpoints w s height hash).outcome = Outcome.nil ∧
      CurrentCheckpoints (UpdateCheckpoints w s height hash).state = cps.map some ∧
      (UpdateCheckpoints w s height hash).effects = [] := by
  obtain ⟨first, rest, hfr⟩ := List.exists_cons_of_ne_nil hcur
  obtain ⟨c, cs, rfl⟩ := List.exists_cons_of_ne_nil hne
  rw [UpdateCheckpoints_consistent hfetch (not_lt.2 hlen) (Inconsistent_eq_false hsame),
    adopt_eq (s := storeStatus s StatusSync) hfr]
  exact ⟨rfl, rfl, rfl⟩

/-- C7 at scenario 1, the consistent trio. -/
theorem consistent_path_witness :
    (UpdateCheckpoints scenario.consistentTrio (scenario.running 3) 100 "h100").outcome =
        Outcome.nil ∧
      CurrentCheckpoints
          (UpdateCheckpoints scenario.consistentTrio (scenario.running 3) 100 "h100").state =
        [scenario.checkpointOf "AAA=" "a", scenario.checkpointOf "AAA=" "b",
          scenario.checkpointOf "AAA=" "c"].map some ∧
      (UpdateCheckpoints scenario.consistentTrio (scenario.running 3) 100 "h100").effects = [] :=
  consistent_path scenario.consistentTrio (scenario.running 3) 100 "h100"
    [scenario.checkpointOf "AAA=" "a", scenario.checkpointOf "AAA=" "b",
      scenario.checkpointOf "AAA=" "c"]
    (by decide) rfl (by decide) (by decide) (by decide)

/-- C7 as stated fails in two ways. With `minimalCheckpoint = 0` and an empty
fetch, at least `minimalCheckpoint` checkpoints are fetched and all of their
commitments are identical, yet the round does not return `nil`: it assigns the
empty list to `currentCheckpoints` and panics on reading its element `0`. On a
state whose current checkpoint list is empty (the state that `New` builds for an
empty provider list, and the running state with its list emptied), the
consistent trio is fetched, and the round panics on reading
`s.currentCheckpoints[0]`. -/
theorem consistent_path_counterexample :
    (scenario.nothingFetched.GetCheckpoints (scenario.running 0).providers 100 "h100" =
        Except.ok [] ∧
      (scenario.running 0).minimalCheckpoint ≤
        ((([] : List CheckpointExport).length : Nat) : Int) ∧
      (∀ a ∈ ([] : List CheckpointExport), ∀ b ∈ ([] : List CheckpointExport),
        a.Checkpoint.Commitment = b.Checkpoint.Commitment) ∧
      (scenario.running 0).currentCheckpoints ≠ [] ∧
      (UpdateCheckpoints scenario.nothingFetched (scenario.running 0) 100 "h100").outcome =
        Outcome.panic ∧
      CurrentCheckpoints
          (UpdateCheckpoints scenario.nothingFetched (scenario.running 0) 100 "h100").state =
        []) ∧
    (scenario.consistentTrio.GetCheckpoints scenario.noProviders.providers 100 "h100" =
        Except.ok
          [scenario.checkpointOf "AAA=" "a", scenario.checkpointOf "AAA=" "b",
            scenario.checkpointOf "AAA=" "c"] ∧
      scenario.noProviders.minimalCheckpoint ≤
        (([scenario.checkpointOf "AAA=" "a", scenario.checkpointOf "AAA=" "b",
          scenario.checkpointOf "AAA=" "c"].length : Nat) : Int) ∧
      (∀ a ∈
          [scenario.checkpointOf "AAA=" "a", scenario.checkpointOf "AAA=" "b",
            scenario.checkpointOf "AAA=" "c"],
        ∀ b ∈
          [scenario.checkpointOf "AAA=" "a", scenario.checkpointOf "AAA=" "b",
            scenario.checkpointOf "AAA=" "c"],
        a.Checkpoint.Commitment = b.Checkpoint.Commitment) ∧
      (UpdateCheckpoints scenario.consistentTrio scenario.noProviders 100 "h100").outcome =
        Outcome.panic ∧
      (UpdateCheckpoints scenario.consistentTrio scenario.emptied 100 "h100").outcome =
        Outcome.panic) :=
  ⟨⟨rfl, by decide, by decide, by decide, by decide, by decide⟩,
    ⟨rfl, by decide, by decide, by decide, by decide⟩⟩

/-- On a state whose first current checkpoint is a nil pointer, as in a state
that `New` builds for a non-empty provider list, `CurrentHeight` returns `0`. -/
theorem CurrentHeight_of_nil {s : State} {rest : List (Option CheckpointExport)}
    (hcur : s.currentCheckpoints = none :: rest) : CurrentHeight s = GoResult.ret 0 := by
  simp [CurrentHeight, CurrentFirstCheckpoint, hcur]

/-- On a state whose first current checkpoint has as height the decimal text
of `n < 2 ^ 64`, `CurrentHeight` returns `n`. -/
theorem CurrentHeight_of_decimal {s : State} {ck : CheckpointExport}
    {rest : List (Option CheckpointExport)} {n : Nat}
    (hcur : s.currentCheckpoints = some ck :: rest)
    (htext : ck.Checkpoint.Height = String.mk (strconv.natText n)) (hn : n < 2 ^ 64) :
    CurrentHeight s = GoResult.ret n := by
  simp [CurrentHeight, CurrentFirstCheckpoint, hcur, htext,
    strconv.ParseUint_natText 64 (le_refl _) n hn]

/-- C8 fails on a state whose current checkpoint list is empty: for the state
that `New` builds for an empty provider list, `CurrentFirstCheckpoint` indexes
element `0` of an empty slice, so `CurrentHeight` panics instead of returning
`0`. -/
theorem CurrentHeight_empty_panics :
    (New "" [] none 0 0).currentCheckpoints = [] ∧
      CurrentHeight (New "" [] none 0 0) = GoResult.panic :=
  ⟨rfl, rfl⟩

/-- C10, champion denied at index 0: in every successful inconsistent round
with a non-empty `denyListPath` in which the champion is the element at index
`0` of `succVerify`, every fetched checkpoint that carries the champion's own
commitment is passed to `checkpoints.Deny`. -/
theorem champion_denied_at_index_zero (w : World) (s : State) (height : Nat) (hash : String)
    (cps : List CheckpointExport)
    (hfetch : w.GetCheckpoints s.providers height hash = Except.ok cps)
    (hinc : Inconsistent cps = true)
    (hnil : (UpdateCheckpoints w s height hash).outcome = Outcome.nil)
    (hpath : s.denyListPath ≠ "")
    (hzero : ∃ seemRight,
      selectChampion (collectSuccVerify w s.lastCheckpoint height (aggregate cps)) =
        some (0, seemRight)) :
    ∃ trust ck,
      (collectSuccVerify w s.lastCheckpoint height (aggregate cps))[0]? = some trust ∧
      ck.Checkpoint.Commitment = trust.commitment ∧
      CurrentCheckpoints (UpdateCheckpoints w s height hash).state = [some ck] ∧
      trust.commitment ∉
        (collectSuccVerify w s.lastCheckpoint height (aggregate cps)).tail.map
          (fun x => x.commitment) ∧
      ∀ rejected ∈ cps, rejected.Checkpoint.Commitment = trust.commitment →
        Effect.Deny s.denyListPath (some ck) rejected ∈
          (UpdateCheckpoints w s height hash).effects := by
  obtain ⟨champion, trust, ck, ⟨seemRight, hsel⟩, hidx, hcommit, hcur, hdeny⟩ :=
    inconsistent_round_denies hfetch hinc hnil hpath
  obtain ⟨seemRight0, hsel0⟩ := hzero
  have hchampion : champion = 0 := by
    have hpair := hsel.symm.trans hsel0
    simp only [Option.some.injEq, Prod.mk.injEq] at hpair
    exact hpair.1
  subst hchampion
  have hnot : trust.commitment ∉
      (collectSuccVerify w s.lastCheckpoint height (aggregate cps)).tail.map
        (fun x => x.commitment) := by
    have hnodup := collectSuccVerify_nodup w s.lastCheckpoint height cps
    cases hl : collectSuccVerify w s.lastCheckpoint height (aggregate cps) with
    | nil =>
      rw [hl] at hidx
      simp at hidx
    | cons head tail =>
      rw [hl] at hidx hnodup
      simp only [List.getElem?_cons_zero, Option.some.injEq] at hidx
      subst hidx
      simp only [List.map_cons, List.nodup_cons] at hnodup
      exact hnodup.1
  refine ⟨trust, ck, hidx, hcommit, hcur, hnot, ?_⟩
  intro rejected hrej hsame
  apply hdeny rejected hrej
  rw [hsame]
  exact hnot

/-- C10 at a round where the result of the champion `Y` arrives first: both
providers of `Y` are denied. -/
theorem champion_denied_at_index_zero_witness :
    ∃ trust ck,
      (collectSuccVerify scenario.championFirst (scenario.running 3).lastCheckpoint 100
          (aggregate
            [scenario.checkpointOf "X" "a", scenario.checkpointOf "Y" "b",
              scenario.checkpointOf "Y" "c"]))[0]? = some trust ∧
      ck.Checkpoint.Commitment = trust.commitment ∧
      CurrentCheckpoints
          (UpdateCheckpoints scenario.championFirst (scenario.running 3) 100 "h100").state =
        [some ck] ∧
      trust.commitment ∉
        (collectSuccVerify scenario.championFirst (scenario.running 3).lastCheckpoint 100
          (aggregate
            [scenario.checkpointOf "X" "a", scenario.checkpointOf "Y" "b",
              scenario.checkpointOf "Y" "c"])).tail.map
          (fun x => x.commitment) ∧
      ∀ rejected ∈
          [scenario.checkpointOf "X" "a", scenario.checkpointOf "Y" "b",
            scenario.checkpointOf "Y" "c"],
        rejected.Checkpoint.Commitment = trust.commitment →
          Effect.Deny (scenario.running 3).denyListPath (some ck) rejected ∈
            (UpdateCheckpoints scenario.championFirst (scenario.running 3) 100 "h100").effects :=
  champion_denied_at_index_zero scenario.championFirst (scenario.running 3) 100 "h100"
    [scenario.checkpointOf "X" "a", scenario.checkpointOf "Y" "b", scenario.checkpointOf "Y" "c"]
    rfl (by decide) (by decide) (by decide) ⟨["X"], by decide⟩

end states
